import Mathlib

/-!
# Now-SC: an embedding of the presales bootstrap tool

A shallow embedding of the Go sources under `internal/` (packages `github`,
`openrouter`, `project` and `commands`) together with theorems about it.

Conventions of the embedding:

* a Go `string` is a Lean `String`, read as the sequence of runes that Go's
  `range`/`strings.Map` iterate over;
* a Go `(value, error)` result is either an `Except String _` or a pair whose
  second component is `Option String` (the text of `err.Error()`, `none` for `nil`);
* the outside world (HTTP peers, the `git` binary, the file system) is an explicit
  argument, and the calls made to it are returned as a trace of `Event`s.
-/

set_option autoImplicit false

namespace NowSC

/-! ## Strings -/

/-- Go's `strings.Map` for a mapping that never returns a negative rune. -/
def stringsMap (mapping : Char → Char) (s : String) : String :=
  ⟨s.data.map mapping⟩

/-- Substring test on rune sequences. -/
def listContains (substr : List Char) : List Char → Bool
  | [] => substr.isEmpty
  | c :: cs => substr.isPrefixOf (c :: cs) || listContains substr cs

/-- Go's `strings.Contains`. -/
def stringsContains (s substr : String) : Bool :=
  listContains substr.data s.data

/-- Go's `strings.HasSuffix`. -/
def stringsHasSuffix (s suffix : String) : Bool :=
  suffix.data.isSuffixOf s.data

/-- Rendering of an `int` status code by the `%d` verb. -/
def fmtInt (n : Nat) : String :=
  toString n

/-! ## Package `github`: constants and data -/

def GitHubBaseURL : String :=
  "https://api.github.com/repos/Now-AI-Foundry/Now-SC-Base-Prompts/contents/Prompts"

def GitHubAPIURL : String :=
  "https://api.github.com"

def GitHubOrg : String :=
  "Now-AI-Foundry"

def TemplateBaseURL : String :=
  "https://raw.githubusercontent.com/Now-AI-Foundry/Now-SC-Base-Prompts/main/Templates"

/-- The struct `GitHubFile`; `Type_` is its field `Type`. -/
structure GitHubFile where
  Name : String
  Type_ : String
  DownloadURL : String
  deriving DecidableEq, Repr

structure GitHubRepo where
  CloneURL : String
  HTMLURL : String
  deriving DecidableEq, Repr

/-- What an HTTP exchange yields: either the transport fails with the text of its
error, or a response arrives with a status code and a body; `decoded` is what
`json.NewDecoder(resp.Body).Decode` makes of that body. -/
inductive HttpResult (α : Type) where
  | transportError (msg : String)
  | response (status : Nat) (body : String) (decoded : Except String α)

instance instDecidableEqExcept {ε α : Type} [DecidableEq ε] [DecidableEq α] :
    DecidableEq (Except ε α)
  | .error a, .error b => if h : a = b then isTrue (by rw [h]) else isFalse (by intro k; cases k; exact h rfl)
  | .ok a, .ok b => if h : a = b then isTrue (by rw [h]) else isFalse (by intro k; cases k; exact h rfl)
  | .error _, .ok _ => isFalse (by intro k; cases k)
  | .ok _, .error _ => isFalse (by intro k; cases k)

instance instDecidableEqHttpResult {α : Type} [DecidableEq α] : DecidableEq (HttpResult α)
  | .transportError a, .transportError b =>
    if h : a = b then isTrue (by rw [h]) else isFalse (by intro k; cases k; exact h rfl)
  | .response s b d, .response s2 b2 d2 =>
    if h : s = s2 ∧ b = b2 ∧ d = d2 then isTrue (by obtain ⟨h1, h2, h3⟩ := h; rw [h1, h2, h3])
    else isFalse (by intro k; cases k; exact h ⟨rfl, rfl, rfl⟩)
  | .transportError _, .response _ _ _ => isFalse (by intro k; cases k)
  | .response _ _ _, .transportError _ => isFalse (by intro k; cases k)

/-- Calls made to the outside world. -/
inductive Event where
  | post (url token body : String)
  | exec (dir : String) (args : List String)
  | print (text : String)
  deriving DecidableEq, Repr

/-- The world `CreateRepository` runs in: the `GITHUB_PAT` variable, the answers of the
GitHub API to a POST, and the error (if any) of running a command in a directory. -/
structure Env where
  GITHUB_PAT : String
  post : (url token body : String) → HttpResult GitHubRepo
  run : (dir : String) → (args : List String) → Option String

/-- The trace of calls a function made and the error it returned. -/
structure Run where
  trace : List Event
  err : Option String
  deriving DecidableEq, Repr

/-! ## Repository-name sanitization (`CreateRepository`, the `strings.Map` closure) -/

/-- The condition of the closure passed to `strings.Map`. -/
def isRepoNameRune (r : Char) : Bool :=
  (decide ('a' ≤ r) && decide (r ≤ 'z')) || (decide ('A' ≤ r) && decide (r ≤ 'Z')) ||
    (decide ('0' ≤ r) && decide (r ≤ '9')) || r == '-' || r == '_'

/-- The closure passed to `strings.Map`. -/
def sanitizeRune (r : Char) : Char :=
  if isRepoNameRune r then r else '-'

/-- The value of `repoName` in `CreateRepository`. -/
def sanitizeRepoName (projectName : String) : String :=
  stringsMap sanitizeRune projectName

/-- The character class `[A-Za-z0-9_-]`, written out. -/
def repoNameAlphabet : List Char :=
  "ABCDEFGHIJKLMNOPQRSTUVWXYZabcdefghijklmnopqrstuvwxyz0123456789_-".data

/-! ## Repository creation -/

/-- The raw-string template of `createOrgRepository` and `createUserRepository`
with both `%s` verbs filled in. -/
def repoRequestBody (repoName description : String) : String :=
  "\x7b\n\t\t\"name\": \"" ++ repoName ++ "\",\n\t\t\"description\": \"" ++ description ++
    "\",\n\t\t\"private\": true,\n\t\t\"auto_init\": false\n\t\x7d"

def orgReposURL : String :=
  GitHubAPIURL ++ "/orgs/" ++ GitHubOrg ++ "/repos"

def userReposURL : String :=
  GitHubAPIURL ++ "/user/repos"

/-- The function `createOrgRepository`. `http.NewRequest` cannot fail here (constant
method and URL), so the first error path is the transport. -/
def createOrgRepository (env : Env) (token repoName description : String) :
    Except String GitHubRepo :=
  match env.post orgReposURL token (repoRequestBody repoName description) with
  | .transportError e => .error ("failed to create repository: " ++ e)
  | .response status body decoded =>
    if status = 422 then
      .error ("repository \"" ++ repoName ++ "\" already exists in " ++ GitHubOrg ++ " organization")
    else if status ≠ 201 then
      .error ("GitHub API returned status " ++ fmtInt status ++ ": " ++ body)
    else
      match decoded with
      | .error e => .error ("failed to decode response: " ++ e)
      | .ok repo => .ok repo

/-- The function `createUserRepository`. -/
def createUserRepository (env : Env) (token repoName description : String) :
    Except String GitHubRepo :=
  match env.post userReposURL token (repoRequestBody repoName description) with
  | .transportError e => .error ("failed to create repository: " ++ e)
  | .response status body decoded =>
    if status = 422 then
      if stringsContains body "already exists" then
        .error ("repository \"" ++ repoName ++ "\" already exists in your account")
      else
        .error ("GitHub API returned status " ++ fmtInt status ++ ": " ++ body)
    else if status ≠ 201 then
      .error ("GitHub API returned status " ++ fmtInt status ++ ": " ++ body)
    else
      match decoded with
      | .error e => .error ("failed to decode response: " ++ e)
      | .ok repo => .ok repo

/-- The loop of `initGitRepo` over its command list. -/
def runCommands (env : Env) (projectPath : String) : List (List String) → Run
  | [] => ⟨[], none⟩
  | cmdArgs :: rest =>
    match env.run projectPath cmdArgs with
    | some e => ⟨[.exec projectPath cmdArgs], some ("failed to run " ++ " ".intercalate cmdArgs ++ ": " ++ e)⟩
    | none =>
      let r := runCommands env projectPath rest
      ⟨.exec projectPath cmdArgs :: r.trace, r.err⟩

/-- The function `initGitRepo`. -/
def initGitRepo (env : Env) (projectPath repoURL : String) : Run :=
  runCommands env projectPath
    [["git", "init"], ["git", "remote", "add", "origin", repoURL], ["git", "branch", "-M", "main"]]

/-- The tail of `CreateRepository` once a repository has been obtained. -/
def finishRepository (env : Env) (projectPath : String) (repo : GitHubRepo) : Run :=
  let g := initGitRepo env projectPath repo.CloneURL
  match g.err with
  | some e => ⟨g.trace, some ("failed to initialize git: " ++ e)⟩
  | none => ⟨g.trace ++ [.print ("Repository URL: " ++ repo.HTMLURL ++ "\n")], none⟩

def fallbackNote : String :=
  "Note: Cannot create in " ++ GitHubOrg ++
    " organization. Creating in your personal account instead...\n"

/-- The function `CreateRepository`. -/
def CreateRepository (env : Env) (projectPath projectName customerName : String) : Run :=
  let token := env.GITHUB_PAT
  if token = "" then
    ⟨[], some "GITHUB_PAT environment variable not set"⟩
  else
    let repoName := sanitizeRepoName projectName
    let description := "Presales project for " ++ customerName
    let orgCall := Event.post orgReposURL token (repoRequestBody repoName description)
    match createOrgRepository env token repoName description with
    | .error e =>
      if stringsContains e "403" || stringsContains e "admin access" then
        let userCall := Event.post userReposURL token (repoRequestBody repoName description)
        match createUserRepository env token repoName description with
        | .error e2 => ⟨[orgCall, .print fallbackNote, userCall], some e2⟩
        | .ok repo =>
          let f := finishRepository env projectPath repo
          ⟨[orgCall, .print fallbackNote, userCall] ++ f.trace, f.err⟩
      else
        ⟨[orgCall], some e⟩
    | .ok repo =>
      let f := finishRepository env projectPath repo
      ⟨orgCall :: f.trace, f.err⟩

/-! ## Reading a request body back as JSON

A reader for the JSON texts the repository endpoints are sent: an object whose values
are strings or booleans. It follows RFC 8259 for white space, string literals and
escapes; any other text is rejected. -/

inductive JSONValue where
  | str (s : String)
  | bool (b : Bool)
  deriving DecidableEq, Repr

def jsonSkipWs : List Char → List Char
  | [] => []
  | c :: cs => if c = ' ' ∨ c = '\t' ∨ c = '\n' ∨ c = '\r' then jsonSkipWs cs else c :: cs

def hexDigit (c : Char) : Option Nat :=
  if '0' ≤ c ∧ c ≤ '9' then some (c.toNat - '0'.toNat)
  else if 'a' ≤ c ∧ c ≤ 'f' then some (c.toNat - 'a'.toNat + 10)
  else if 'A' ≤ c ∧ c ≤ 'F' then some (c.toNat - 'A'.toNat + 10)
  else none

/-- Reads a string literal after its opening quote; `acc` holds the decoded runes
in reverse. Returns the decoded string and the text after the closing quote. -/
def jsonScanString : List Char → List Char → Option (String × List Char)
  | [], _ => none
  | '"' :: rest, acc => some (⟨acc.reverse⟩, rest)
  | '\\' :: 'u' :: a :: b :: c :: d :: rest, acc =>
    match hexDigit a, hexDigit b, hexDigit c, hexDigit d with
    | some x, some y, some z, some w =>
      jsonScanString rest (Char.ofNat (((x * 16 + y) * 16 + z) * 16 + w) :: acc)
    | _, _, _, _ => none
  | '\\' :: e :: rest, acc =>
    if e = '"' then jsonScanString rest ('"' :: acc)
    else if e = '\\' then jsonScanString rest ('\\' :: acc)
    else if e = '/' then jsonScanString rest ('/' :: acc)
    else if e = 'b' then jsonScanString rest (Char.ofNat 8 :: acc)
    else if e = 'f' then jsonScanString rest (Char.ofNat 12 :: acc)
    else if e = 'n' then jsonScanString rest ('\n' :: acc)
    else if e = 'r' then jsonScanString rest ('\r' :: acc)
    else if e = 't' then jsonScanString rest ('\t' :: acc)
    else none
  | c :: rest, acc =>
    if c = '\\' ∨ c.toNat < 32 then none else jsonScanString rest (c :: acc)

def jsonScanValue : List Char → Option (JSONValue × List Char)
  | '"' :: cs => (jsonScanString cs []).map fun p => (.str p.1, p.2)
  | 't' :: 'r' :: 'u' :: 'e' :: cs => some (.bool true, cs)
  | 'f' :: 'a' :: 'l' :: 's' :: 'e' :: cs => some (.bool false, cs)
  | _ => none

/-- Reads `"key" : value` pairs separated by commas up to the closing brace and
returns them with the text after the brace. -/
def jsonScanMembers : Nat → List Char → Option (List (String × JSONValue) × List Char)
  | 0, _ => none
  | fuel + 1, cs =>
    match jsonSkipWs cs with
    | '"' :: afterQuote =>
      match jsonScanString afterQuote [] with
      | none => none
      | some (key, afterKey) =>
        match jsonSkipWs afterKey with
        | ':' :: afterColon =>
          match jsonScanValue (jsonSkipWs afterColon) with
          | none => none
          | some (v, afterValue) =>
            match jsonSkipWs afterValue with
            | '\x7d' :: tail => some ([(key, v)], tail)
            | ',' :: more =>
              (jsonScanMembers fuel more).map fun p => ((key, v) :: p.1, p.2)
            | _ => none
        | _ => none
    | _ => none

/-- The members of a JSON object text, in the order written; `none` when the text is
not a well-formed object of string and boolean members. -/
def jsonObject (text : String) : Option (List (String × JSONValue)) :=
  match jsonSkipWs text.data with
  | '\x7b' :: inner =>
    match jsonSkipWs inner with
    | '\x7d' :: tail => if jsonSkipWs tail = [] then some [] else none
    | _ =>
      match jsonScanMembers text.data.length inner with
      | some (members, tail) => if jsonSkipWs tail = [] then some members else none
      | none => none
  | _ => none

/-- A rune that may stand unescaped inside a JSON string literal. -/
def PlainRune (c : Char) : Prop :=
  c ≠ '"' ∧ c ≠ '\\' ∧ 32 ≤ c.toNat

instance instDecidablePlainRune (c : Char) : Decidable (PlainRune c) := by
  unfold PlainRune
  exact inferInstance

/-! ## Package `openrouter` -/

def OpenRouterAPIURL : String :=
  "https://openrouter.ai/api/v1/chat/completions"

def DefaultModel : String :=
  "google/gemini-2.0-flash-exp:free"

structure Message where
  Role : String
  Content : String
  deriving DecidableEq, Repr

structure Request where
  Model : String
  Messages : List Message
  deriving DecidableEq, Repr

structure ChoiceMessage where
  Content : String
  deriving DecidableEq, Repr

structure Choice where
  Message : ChoiceMessage
  deriving DecidableEq, Repr

structure Response where
  Choices : List Choice
  deriving DecidableEq, Repr

/-- The client: its key and the answer of the completions endpoint to a request sent
with a given `Authorization` header. -/
structure Client where
  apiKey : String
  client : (authorization : String) → Request → HttpResult Response

/-- The value of `reqBody` in `ExecutePrompt`. -/
def buildRequest (promptContent userInput : String) : Request :=
  let userInput := if userInput = "" then "Please provide guidance based on the system prompt." else userInput
  { Model := DefaultModel,
    Messages := [{ Role := "system", Content := promptContent }, { Role := "user", Content := userInput }] }

/-- What a call of `ExecutePrompt` did: the request it sent, the text it returned and
its error. -/
structure PromptRun where
  sent : Request
  text : String
  err : Option String
  deriving DecidableEq, Repr

/-- The method `Client.ExecutePrompt`. Marshalling a struct of strings and building a
request for a constant URL cannot fail, so the request is always sent. -/
def ExecutePrompt (c : Client) (promptContent userInput : String) : PromptRun :=
  let reqBody := buildRequest promptContent userInput
  match c.client ("Bearer " ++ c.apiKey) reqBody with
  | .transportError e => ⟨reqBody, "", some ("failed to execute request: " ++ e)⟩
  | .response status body decoded =>
    if status ≠ 200 then
      ⟨reqBody, "", some ("OpenRouter API error (status " ++ fmtInt status ++ "): " ++ body)⟩
    else
      match decoded with
      | .error e => ⟨reqBody, "", some ("failed to decode response: " ++ e)⟩
      | .ok apiResp =>
        match apiResp.Choices with
        | [] => ⟨reqBody, "", some "no response from API"⟩
        | first :: _ => ⟨reqBody, first.Message.Content, none⟩

/-! ## Sample worlds -/

/-- A world in which the organization endpoint answers 422 and the user endpoint
creates the repository. -/
def envOrgExists : Env :=
  { GITHUB_PAT := "tok",
    post := fun url _ _ =>
      if url = orgReposURL then .response 422 "" (.error "EOF")
      else .response 201 "" (.ok ⟨"https://github.com/u/poc-403.git", "https://github.com/u/poc-403"⟩),
    run := fun _ _ => none }

/-- A world in which the organization endpoint answers 403 and the user endpoint
creates the repository. -/
def envOrgForbidden : Env :=
  { GITHUB_PAT := "tok",
    post := fun url _ _ =>
      if url = orgReposURL then .response 403 "Must have admin access" (.error "EOF")
      else .response 201 "" (.ok ⟨"https://github.com/u/acme.git", "https://github.com/u/acme"⟩),
    run := fun _ _ => none }

/-- A world in which the organization endpoint creates the repository. -/
def envOrgCreated : Env :=
  { GITHUB_PAT := "tok",
    post := fun _ _ _ =>
      .response 201 "" (.ok ⟨"https://github.com/o/acme.git", "https://github.com/o/acme"⟩),
    run := fun _ _ => none }

/-- A client whose endpoint always answers with the given result. -/
def constClient (answer : HttpResult Response) : Client :=
  { apiKey := "key", client := fun _ _ => answer }

/-! ## Paths (`path/filepath` on Unix) -/

/-- Go's `strings.Split(s, "/")` on rune sequences. -/
def splitSlash : List Char → List (List Char)
  | [] => [[]]
  | c :: cs =>
    if c = '/' then [] :: splitSlash cs
    else
      match splitSlash cs with
      | [] => [[c]]
      | h :: t => (c :: h) :: t

/-- Go's `strings.Join(elems, "/")` on rune sequences. -/
def joinSlash : List String → List Char
  | [] => []
  | [c] => c.data
  | c :: d :: rest => c.data ++ '/' :: joinSlash (d :: rest)

/-- A directory as a lexically resolved path: whether it starts at the root, and its
elements from there (or from the working directory); a relative path above the working
directory starts with `..` elements. -/
structure Node where
  rooted : Bool
  comps : List String
  deriving DecidableEq, Repr

/-- One step of `filepath.Clean`: the elements kept so far (last one first) and the
next element. Empty and `.` elements are dropped; `..` removes the element before it,
is dropped at the root, and is kept at the start of a relative path. -/
def cleanPush (rooted : Bool) (stack : List String) (elem : List Char) : List String :=
  if elem = [] ∨ elem = ['.'] then stack
  else if elem = ['.', '.'] then
    match stack with
    | [] => if rooted then [] else [".."]
    | top :: below => if top = ".." then ".." :: top :: below else below
  else ⟨elem⟩ :: stack

/-- The directory a path string names, by the rules of `filepath.Clean`. -/
def lexResolve (path : String) : Node :=
  let rooted := decide (path.data.head? = some '/')
  ⟨rooted, ((splitSlash path.data).foldl (cleanPush rooted) []).reverse⟩

/-- The shortest path string naming a directory. -/
def Node.render (n : Node) : String :=
  if n.rooted then ⟨'/' :: joinSlash n.comps⟩
  else if n.comps = [] then "." else ⟨joinSlash n.comps⟩

/-- The elements kept by `filepath.Clean` (last one first) are proper names or `..`, and
cleaning them again keeps them all. -/
def StackOK (rooted : Bool) (stack : List String) : Prop :=
  (∀ c ∈ stack, c.data ≠ [] ∧ c.data ≠ ['.'] ∧ '/' ∉ c.data) ∧
    (stack.reverse.map String.data).foldl (cleanPush rooted) [] = stack

/-- Go's `filepath.Clean`. -/
def filepathClean (path : String) : String :=
  (lexResolve path).render

/-- Go's `filepath.Join` for two elements: the elements from the first non-empty one
on are joined with a slash and cleaned; the result is empty when both are empty. -/
def filepathJoin (a b : String) : String :=
  if a ≠ "" then filepathClean (a ++ "/" ++ b)
  else if b ≠ "" then filepathClean b
  else ""

/-! ## The file system -/

/-- The part of the file system the scaffolder sees: the directories that exist, and
for every directory that does not the errno text with which creating it would fail
(a file in the way, missing permission), `none` when it can be created. -/
structure FS where
  dirs : List Node
  deny : Node → Option String

/-- Does the directory exist? The root, the working directory and the directories above
it always do. -/
def FS.isDir (fs : FS) (n : Node) : Bool :=
  n.comps.all (fun c => c == "..") || decide (n ∈ fs.dirs)

/-- Every directory that exists has a parent that exists. -/
def FS.Closed (fs : FS) : Prop :=
  ∀ (rooted : Bool) (parent : List String) (name : String),
    fs.isDir ⟨rooted, parent ++ [name]⟩ = true → fs.isDir ⟨rooted, parent⟩ = true

/-- The recursion of Go's `os.MkdirAll`, on the elements of the path, last one first:
succeed at once if the directory exists, otherwise make the parent, then the directory
itself. -/
def mkdirAllRev (fs : FS) (rooted : Bool) : List String → FS × Option String
  | [] => (fs, none)
  | name :: parentRev =>
    let node : Node := ⟨rooted, (name :: parentRev).reverse⟩
    if fs.isDir node then (fs, none)
    else
      match mkdirAllRev fs rooted parentRev with
      | (fs1, some e) => (fs1, some e)
      | (fs1, none) =>
        match fs1.deny node with
        | some e => (fs1, some ("mkdir " ++ node.render ++ ": " ++ e))
        | none => (⟨node :: fs1.dirs, fs1.deny⟩, none)

/-- Go's `os.MkdirAll`: the file system afterwards and the error. -/
def MkdirAll (fs : FS) (path : String) : FS × Option String :=
  mkdirAllRev fs (lexResolve path).rooted (lexResolve path).comps.reverse

/-! ## Package `project` -/

/-- A `map[string]interface{}` of nested maps, laid out in one iteration order: the
first entry (its key and its value) and the remaining entries. -/
inductive DirTree where
  | nil : DirTree
  | entry (dirName : String) (subDirs : DirTree) (rest : DirTree) : DirTree
  deriving DecidableEq, Repr

/-- The variable `DirectoryStructure`, in the order of the source text. -/
def DirectoryStructure : DirTree :=
  .entry "00_Inbox"
    (.entry "calls" (.entry "internal" .nil (.entry "external" .nil .nil))
      (.entry "emails" .nil (.entry "notes" .nil .nil)))
  (.entry "01_Customers" .nil
  (.entry "10_PromptTemplates" .nil
  (.entry "20_Demo_Library" .nil
  (.entry "30_CommunicationTemplates" .nil
  (.entry "99_Assets"
    (.entry "Project_Overview" .nil (.entry "Communications" .nil (.entry "POC_Documents" .nil .nil)))
    .nil)))))

/-- Two layouts of the same nested map: Go ranges over a map in an unspecified order,
at every level. -/
inductive SameMap : DirTree → DirTree → Prop where
  | nil : SameMap .nil .nil
  | entry (dirName : String) {s s2 r r2 : DirTree} :
      SameMap s s2 → SameMap r r2 → SameMap (.entry dirName s r) (.entry dirName s2 r2)
  | swap (d1 d2 : String) (s1 s2 r : DirTree) :
      SameMap (.entry d1 s1 (.entry d2 s2 r)) (.entry d2 s2 (.entry d1 s1 r))
  | trans {a b c : DirTree} : SameMap a b → SameMap b c → SameMap a c

/-- The function `createDirectoryStructure`, ranging over the map in the order of the
layout: the file system afterwards and the error. -/
def createDirectoryStructure : FS → String → DirTree → String → FS × Option String
  | fs, _, .nil, _ => (fs, none)
  | fs, basePath, .entry dirName subDirs rest, customerName =>
    let fullPath := filepathJoin basePath dirName
    let made :=
      if dirName = "01_Customers" ∧ customerName ≠ "" then
        match MkdirAll fs (filepathJoin fullPath customerName) with
        | (fs1, some e) => (fs1, some ("failed to create customer directory: " ++ e))
        | (fs1, none) => (fs1, none)
      else
        match MkdirAll fs fullPath with
        | (fs1, some e) => (fs1, some ("failed to create directory " ++ fullPath ++ ": " ++ e))
        | (fs1, none) => (fs1, none)
    match made with
    | (fs1, some e) => (fs1, some e)
    | (fs1, none) =>
      let below :=
        if subDirs ≠ .nil then createDirectoryStructure fs1 fullPath subDirs ""
        else (fs1, none)
      match below with
      | (fs2, some e) => (fs2, some e)
      | (fs2, none) => createDirectoryStructure fs2 basePath rest customerName

/-- The function `CreateStructure`, for one iteration order of the map. -/
def CreateStructure (fs : FS) (layout : DirTree) (basePath customerName : String) :
    FS × Option String :=
  createDirectoryStructure fs basePath layout customerName

/-- The paths `createDirectoryStructure` hands to `os.MkdirAll` when no call fails. -/
def mkdirTargets : String → DirTree → String → List String
  | _, .nil, _ => []
  | basePath, .entry dirName subDirs rest, customerName =>
    let fullPath := filepathJoin basePath dirName
    (if dirName = "01_Customers" ∧ customerName ≠ "" then filepathJoin fullPath customerName
      else fullPath) ::
      (mkdirTargets fullPath subDirs "" ++ mkdirTargets basePath rest customerName)

/-- A run of `os.MkdirAll` calls that stops at the first failure: the file system
afterwards and whether all calls succeeded. -/
def mkdirSeq : FS → List String → FS × Bool
  | fs, [] => (fs, true)
  | fs, p :: ps =>
    match MkdirAll fs p with
    | (fs1, some _) => (fs1, false)
    | (fs1, none) => mkdirSeq fs1 ps

/-- The nodes of the static tree, as paths of names below the project root. -/
def staticNodes : List (List String) :=
  [["00_Inbox"], ["00_Inbox", "calls"], ["00_Inbox", "calls", "internal"],
    ["00_Inbox", "calls", "external"], ["00_Inbox", "emails"], ["00_Inbox", "notes"],
    ["01_Customers"], ["10_PromptTemplates"], ["20_Demo_Library"],
    ["30_CommunicationTemplates"], ["99_Assets"], ["99_Assets", "Project_Overview"],
    ["99_Assets", "Communications"], ["99_Assets", "POC_Documents"]]

/-- The directories `createDirectoryStructure` asks for, as paths of names below the
project root, for a customer name that is a single path element. -/
def targetSuffixes (customerName : String) : List (List String) :=
  [["00_Inbox"], ["00_Inbox", "calls"], ["00_Inbox", "calls", "internal"],
    ["00_Inbox", "calls", "external"], ["00_Inbox", "emails"], ["00_Inbox", "notes"],
    ["01_Customers", customerName], ["10_PromptTemplates"], ["20_Demo_Library"],
    ["30_CommunicationTemplates"], ["99_Assets"], ["99_Assets", "Project_Overview"],
    ["99_Assets", "Communications"], ["99_Assets", "POC_Documents"]]

/-- The map of the source with its first two entries exchanged. -/
def swappedStructure : DirTree :=
  .entry "01_Customers" .nil
  (.entry "00_Inbox"
    (.entry "calls" (.entry "internal" .nil (.entry "external" .nil .nil))
      (.entry "emails" .nil (.entry "notes" .nil .nil)))
  (.entry "10_PromptTemplates" .nil
  (.entry "20_Demo_Library" .nil
  (.entry "30_CommunicationTemplates" .nil
  (.entry "99_Assets"
    (.entry "Project_Overview" .nil (.entry "Communications" .nil (.entry "POC_Documents" .nil .nil)))
    .nil)))))

/-- A name that is a single path element: not empty, without a slash, and neither
`.` nor `..`. -/
def IsPathElement (name : String) : Prop :=
  name ≠ "" ∧ '/' ∉ name.data ∧ name ≠ "." ∧ name ≠ ".."

instance instDecidableIsPathElement (name : String) : Decidable (IsPathElement name) := by
  unfold IsPathElement
  exact inferInstance

/-- A file system in which nothing exists yet and every directory can be created. -/
def emptyFS : FS :=
  { dirs := [], deny := fun _ => none }

/-! ## Fetching the prompt templates -/

/-- What a plain GET yields: the transport fails, or a response arrives with a status
code; `read` is what `io.ReadAll(resp.Body)` returns. -/
inductive GetResult where
  | transportError (msg : String)
  | response (status : Nat) (read : Except String String)

/-- The world `FetchAndSavePrompts` runs in: the answer of the listing endpoint, and for
the entry at each position of the listing the answer to the GET of a URL and the error
(if any) of `os.WriteFile` for a path and content. -/
structure FetchWorld where
  listing : HttpResult (List GitHubFile)
  get : (position : Nat) → (url : String) → GetResult
  writeFile : (position : Nat) → (path content : String) → Option String

/-- The function `downloadFile`. -/
def downloadFile (get : String → GetResult) (url : String) : Except String String :=
  match get url with
  | .transportError e => .error e
  | .response status read =>
    if status ≠ 200 then .error ("download failed with status " ++ fmtInt status)
    else read

/-- The files written, in order, as pairs of path and content, and the error returned. -/
structure SaveRun where
  writes : List (String × String)
  err : Option String
  deriving DecidableEq, Repr

/-- The loop of `FetchAndSavePrompts` over the decoded listing, from a position on. -/
def savePrompts (w : FetchWorld) (promptsPath : String) : Nat → List GitHubFile → SaveRun
  | _, [] => ⟨[], none⟩
  | position, file :: rest =>
    if file.Type_ = "file" ∧ stringsHasSuffix file.Name ".md" = true then
      match downloadFile (w.get position) file.DownloadURL with
      | .error e => ⟨[], some ("failed to download " ++ file.Name ++ ": " ++ e)⟩
      | .ok content =>
        let filePath := filepathJoin promptsPath file.Name
        match w.writeFile position filePath content with
        | some e => ⟨[], some ("failed to save " ++ file.Name ++ ": " ++ e)⟩
        | none =>
          let r := savePrompts w promptsPath (position + 1) rest
          ⟨(filePath, content) :: r.writes, r.err⟩
    else savePrompts w promptsPath (position + 1) rest

/-- The function `FetchAndSavePrompts`. -/
def FetchAndSavePrompts (w : FetchWorld) (projectPath : String) : SaveRun :=
  match w.listing with
  | .transportError e => ⟨[], some ("failed to fetch prompts: " ++ e)⟩
  | .response status _ decoded =>
    if status ≠ 200 then ⟨[], some ("GitHub API returned status " ++ fmtInt status)⟩
    else
      match decoded with
      | .error e => ⟨[], some ("failed to decode response: " ++ e)⟩
      | .ok files => savePrompts w (filepathJoin projectPath "10_PromptTemplates") 0 files

/-- Is the entry one the fetch is about: type "file" and a name ending in ".md"? -/
def isPromptEntry (file : GitHubFile) : Bool :=
  decide (file.Type_ = "file") && stringsHasSuffix file.Name ".md"

/-- What becomes of a listing entry when it is tried: the path and content written when
both its download and its write succeed, `none` when one of them fails. -/
def entrySaved (w : FetchWorld) (promptsPath : String) (entry : Nat × GitHubFile) :
    Option (String × String) :=
  match downloadFile (w.get entry.1) entry.2.DownloadURL with
  | .error _ => none
  | .ok content =>
    match w.writeFile entry.1 (filepathJoin promptsPath entry.2.Name) content with
    | some _ => none
    | none => some (filepathJoin promptsPath entry.2.Name, content)

/-- A listing of four entries in a world where the third download answers 404. -/
def sampleListing : List GitHubFile :=
  [⟨"a.md", "file", "u/a"⟩, ⟨"docs", "dir", ""⟩, ⟨"b.md", "file", "u/b"⟩, ⟨"c.md", "file", "u/c"⟩]

def sampleFetchWorld : FetchWorld :=
  { listing := .response 200 "" (.ok sampleListing),
    get := fun _ url => if url = "u/b" then .response 404 (.ok "") else .response 200 (.ok ("# " ++ url)),
    writeFile := fun _ _ _ => none }

/-- A world whose listing holds one file entry named `../evil.md` and in which every
download and write succeeds. -/
def traversalWorld : FetchWorld :=
  { listing := .response 200 "" (.ok [⟨"../evil.md", "file", "u/e"⟩]),
    get := fun _ url => .response 200 (.ok ("# " ++ url)),
    writeFile := fun _ _ _ => none }

/-! ## Fetching the communication templates -/

/-- The table `templates` of `FetchCommunicationTemplates`: URL and local file name. -/
def communicationTemplates : List (String × String) :=
  [(TemplateBaseURL ++ "/servicenow_poc_status_template.html",
    "servicenow_poc_status_template.html")]

/-- What a call of `FetchCommunicationTemplates` did: the URLs it tried to download, in
order, the files it wrote as pairs of path and content, and the error it returned. -/
structure TemplateRun where
  attempted : List String
  writes : List (String × String)
  err : Option String
  deriving DecidableEq, Repr

/-- The loop of `FetchCommunicationTemplates` over a table, from a position on; both
`continue` statements go on with the rest, and after the loop the function returns
`nil`. -/
def saveTemplates (w : FetchWorld) (templatesPath : String) :
    Nat → List (String × String) → TemplateRun
  | _, [] => ⟨[], [], none⟩
  | position, template :: rest =>
    let r := saveTemplates w templatesPath (position + 1) rest
    match downloadFile (w.get position) template.1 with
    | .error _ => ⟨template.1 :: r.attempted, r.writes, r.err⟩
    | .ok content =>
      let filePath := filepathJoin templatesPath template.2
      match w.writeFile position filePath content with
      | some _ => ⟨template.1 :: r.attempted, r.writes, r.err⟩
      | none => ⟨template.1 :: r.attempted, (filePath, content) :: r.writes, r.err⟩

/-- The function `FetchCommunicationTemplates`. -/
def FetchCommunicationTemplates (w : FetchWorld) (projectPath : String) : TemplateRun :=
  saveTemplates w (filepathJoin projectPath "30_CommunicationTemplates") 0 communicationTemplates

/-- What becomes of a template when it is tried: the path and content written when both
its download and its write succeed, `none` when one of them fails. -/
def templateSaved (w : FetchWorld) (templatesPath : String) (entry : Nat × String × String) :
    Option (String × String) :=
  match downloadFile (w.get entry.1) entry.2.1 with
  | .error _ => none
  | .ok content =>
    match w.writeFile entry.1 (filepathJoin templatesPath entry.2.2) content with
    | some _ => none
    | none => some (filepathJoin templatesPath entry.2.2, content)

/-! ## The project files -/

/-- The README text of `CreateProjectFiles` with its three `%s` verbs filled in. -/
def readmeContent (projectName customerName : String) : String :=
  "# " ++ projectName ++ "\n\n## Customer: " ++ customerName ++
    "\n\nThis project was bootstrapped with Now-SC CLI tool.\n\n## Directory Structure\n\n" ++
    "- **00_Inbox/** - Raw meeting notes and transcripts\n" ++
    "  - calls/internal - Internal call recordings and notes\n" ++
    "  - calls/external - External call recordings and notes\n" ++
    "  - emails - Email communications\n  - notes - General notes\n\n- **01_Customers/" ++
    customerName ++ "/** - Customer-specific information\n\n" ++
    "- **10_PromptTemplates/** - Ready-to-use prompt templates\n\n" ++
    "- **20_Demo_Library/** - Demo materials and resources\n\n" ++
    "- **99_Assets/** - Processed and synthesized outputs\n" ++
    "  - Project_Overview - High-level project summaries\n" ++
    "  - Communications - Prepared communications\n" ++
    "  - POC_Documents - Proof of concept documentation\n\n## Using Prompts\n\n" ++
    "To execute a prompt, use:\n```bash\nnow-sc prompt\n```\n\n" ++
    "Make sure you have set the OPENROUTER_API_KEY environment variable.\n"

def envExample : String :=
  "# OpenRouter API Key\n# Get your API key from https://openrouter.ai/\n" ++
    "OPENROUTER_API_KEY=your_api_key_here\n"

def gitignoreContent : String :=
  "node_modules/\n.env\n.DS_Store\n*.log\n"

/-- The function `CreateProjectFiles`; `writeFile` gives the error (if any) of
`os.WriteFile` for a path and content. -/
def CreateProjectFiles (writeFile : String → String → Option String)
    (projectPath projectName customerName : String) : SaveRun :=
  let readme := (filepathJoin projectPath "README.md", readmeContent projectName customerName)
  let env := (filepathJoin projectPath ".env.example", envExample)
  let ignore := (filepathJoin projectPath ".gitignore", gitignoreContent)
  match writeFile readme.1 readme.2 with
  | some e => ⟨[], some ("failed to create README: " ++ e)⟩
  | none =>
    match writeFile env.1 env.2 with
    | some e => ⟨[readme], some ("failed to create .env.example: " ++ e)⟩
    | none =>
      match writeFile ignore.1 ignore.2 with
      | some e => ⟨[readme, env], some ("failed to create .gitignore: " ++ e)⟩
      | none => ⟨[readme, env, ignore], none⟩

/-! ## Package `commands`: the init flow -/

/-- The world `runInit` runs in. The flags are the package variables set by cobra; each
prompt answers with its input or its error; `stat` and `removeAll` are the errors of
`os.Stat` and `os.RemoveAll` on the project path (`none` for `nil`); `fs` is the file
system as `CreateStructure` finds it and `layout` the order in which the map is ranged
over. -/
structure InitWorld where
  projectName : String
  customerName : String
  noGitHub : Bool
  promptProjectName : Except String String
  promptCustomerName : Except String String
  stat : Option String
  confirmOverwrite : Option String
  removeAll : Option String
  fs : FS
  layout : DirTree
  prompts : FetchWorld
  templates : FetchWorld
  writeFile : String → String → Option String
  env : Env

/-- What `runInit` does that can be seen from outside: a text handed to a print function
(colour left aside), a prompt shown, and the calls into the other packages. -/
inductive InitEvent where
  | say (text : String)
  | ask (label : String)
  | stat (path : String)
  | removeAll (path : String)
  | createStructure (basePath customerName : String)
  | fetchAndSavePrompts (projectPath : String)
  | fetchCommunicationTemplates (projectPath : String)
  | createProjectFiles (projectPath projectName customerName : String)
  | createRepository (projectPath projectName customerName : String) (calls : List Event)
  deriving DecidableEq, Repr

/-- The events of a run of `runInit` and the error it returned. -/
structure InitRun where
  trace : List InitEvent
  err : Option String
  deriving DecidableEq, Repr

/-- How the part of `runInit` before the repository step ends: with a return (of an
error, or of `nil` when the user declines to overwrite), or with the project created. -/
inductive InitProgress where
  | returned (err : Option String)
  | created (projectName customerName projectPath : String)
  deriving DecidableEq, Repr

/-- The first block of `runInit`: the project name is the flag, or asked for when the
flag is empty. -/
def askProjectName (w : InitWorld) : List InitEvent × Except String String :=
  if w.projectName = "" then
    match w.promptProjectName with
    | .error e => ([.ask "Project name"], .error ("prompt failed: " ++ e))
    | .ok result => ([.ask "Project name"], .ok result)
  else ([], .ok w.projectName)

/-- The second block of `runInit`: the customer name is the flag, or asked for when the
flag is empty. -/
def askCustomerName (w : InitWorld) : List InitEvent × Except String String :=
  if w.customerName = "" then
    match w.promptCustomerName with
    | .error e => ([.ask "Customer name"], .error ("prompt failed: " ++ e))
    | .ok result => ([.ask "Customer name"], .ok result)
  else ([], .ok w.customerName)

/-- The block of `runInit` on an existing project directory: `none` when the flow goes
on, `some r` when it returns `r` (`nil` when the user declines to overwrite). -/
def clearTarget (w : InitWorld) (projectName projectPath : String) :
    List InitEvent × Option (Option String) :=
  match w.stat with
  | some _ => ([.stat projectPath], none)
  | none =>
    let label := "Directory " ++ projectName ++ " already exists. Overwrite"
    match w.confirmOverwrite with
    | some _ =>
      ([.stat projectPath, .ask label, .say "Project initialization cancelled."], some none)
    | none =>
      match w.removeAll with
      | some e =>
        ([.stat projectPath, .ask label, .removeAll projectPath],
          some (some ("failed to remove existing directory: " ++ e)))
      | none => ([.stat projectPath, .ask label, .removeAll projectPath], none)

/-- The events of the blocks before `CreateStructure`: prompts, `os.Stat`,
`os.RemoveAll` and printed lines. -/
def InitEvent.isPreliminary : InitEvent → Bool
  | .say _ => true
  | .ask _ => true
  | .stat _ => true
  | .removeAll _ => true
  | _ => false

/-- The body of `runInit` up to and including the line that reports the project as
created: the events so far and how this part ended. -/
def beforeRepository (w : InitWorld) : List InitEvent × InitProgress :=
  match askProjectName w with
  | (t1, .error e) => (t1, .returned (some e))
  | (t1, .ok projectName) =>
    match askCustomerName w with
    | (t2, .error e) => (t1 ++ t2, .returned (some e))
    | (t2, .ok customerName) =>
      let projectPath := filepathJoin "." projectName
      match clearTarget w projectName projectPath with
      | (t3, some r) => (t1 ++ t2 ++ t3, .returned r)
      | (t3, none) =>
        let t4 := t1 ++ t2 ++ t3 ++
          [.say "Creating project structure...", .createStructure projectPath customerName]
        match (CreateStructure w.fs w.layout projectPath customerName).2 with
        | some e => (t4, .returned (some ("failed to create project structure: " ++ e)))
        | none =>
          let t5 := t4 ++
            [.say "Fetching base prompts from GitHub...", .fetchAndSavePrompts projectPath]
          match (FetchAndSavePrompts w.prompts projectPath).err with
          | some e => (t5, .returned (some ("failed to fetch prompts: " ++ e)))
          | none =>
            let t6 := t5 ++
              [.say "Fetching communication templates...",
                .fetchCommunicationTemplates projectPath] ++
              (match (FetchCommunicationTemplates w.templates projectPath).err with
                | some _ => [.say "\nWarning: Failed to fetch some templates"]
                | none => [])
            let t7 := t6 ++ [.createProjectFiles projectPath projectName customerName]
            match (CreateProjectFiles w.writeFile projectPath projectName customerName).err with
            | some e => (t7, .returned (some ("failed to create project files: " ++ e)))
            | none =>
              (t7 ++ [.say ("✓ Project \"" ++ projectName ++ "\" created successfully!\n")],
                .created projectName customerName projectPath)

def skipNotice : String :=
  "\nSkipped GitHub repository creation."

def missingTokenNote : List String :=
  ["\nNote: GITHUB_PAT environment variable not set. Skipping GitHub repository creation.",
    "To enable automatic repository creation, set your GitHub Personal Access Token:",
    "  export GITHUB_PAT=your_token_here"]

/-- The repository step of `runInit`: the `if` / `else if` / `else` on the opt-out flag
and the token. -/
def repositoryStep (w : InitWorld) (projectName customerName projectPath : String) :
    List InitEvent :=
  let githubToken := w.env.GITHUB_PAT
  if w.noGitHub = false ∧ githubToken ≠ "" then
    let r := CreateRepository w.env projectPath projectName customerName
    [.say "Creating GitHub repository...",
      .createRepository projectPath projectName customerName r.trace] ++
      (match r.err with
        | some e =>
          [.say ("✗ GitHub repository creation failed: " ++ e),
            .say "You can create the repository manually later."]
        | none => [.say "✓ GitHub repository created!"])
  else if w.noGitHub = true then [.say skipNotice]
  else missingTokenNote.map .say

/-- The summary `runInit` prints last. -/
def summaryLines (projectName customerName projectPath : String) : List InitEvent :=
  [.say "", .say "Project structure created:", .say ("  " ++ projectPath ++ "/\n"),
    .say "  ├── 00_Inbox/", .say ("  ├── 01_Customers/" ++ customerName ++ "/\n"),
    .say "  ├── 10_PromptTemplates/", .say "  ├── 20_Demo_Library/", .say "  └── 99_Assets/",
    .say "", .say "Next steps:", .say ("  1. cd " ++ projectName ++ "\n"),
    .say "  2. Set your OPENROUTER_API_KEY environment variable",
    .say "  3. Run \"now-sc prompt\" to execute prompts"]

/-- The function `runInit`. -/
def runInit (w : InitWorld) : InitRun :=
  match beforeRepository w with
  | (t, .returned err) => ⟨t, err⟩
  | (t, .created projectName customerName projectPath) =>
    ⟨t ++ repositoryStep w projectName customerName projectPath ++
      summaryLines projectName customerName projectPath, none⟩

/-! ## Package `commands`: where the prompt flow saves -/

/-- The menu `locations` of `runPrompt`. -/
def locations : List String :=
  ["Project Overview (99_Assets/Project_Overview)", "Communications (99_Assets/Communications)",
    "POC Documents (99_Assets/POC_Documents)", "Notes (00_Inbox/notes)", "Other (specify)"]

/-- The `switch locIdx` of `runPrompt`: the value of `savePath`, or `none` when the flow
returns because the prompt for a path of the user's own fails. An index without a case
leaves `savePath` empty. -/
def resolveSavePath (locIdx : Nat) (promptCustom : Except String String) : Option String :=
  match locIdx with
  | 0 => some "99_Assets/Project_Overview"
  | 1 => some "99_Assets/Communications"
  | 2 => some "99_Assets/POC_Documents"
  | 3 => some "00_Inbox/notes"
  | 4 =>
    match promptCustom with
    | .error _ => none
    | .ok customPath => some customPath
  | _ => some ""

/-- The destination part of `runPrompt`: the location menu is shown, and its answer goes
through the switch; `none` when the flow returns because a prompt fails. -/
def chooseSavePath (locationSelect : Except String Nat) (promptCustom : Except String String) :
    Option String :=
  match locationSelect with
  | .error _ => none
  | .ok locIdx => resolveSavePath locIdx promptCustom

/-- The four preset destinations, by index. -/
def presetPaths : List String :=
  ["99_Assets/Project_Overview", "99_Assets/Communications", "99_Assets/POC_Documents",
    "00_Inbox/notes"]

/-- The text before the first closing parenthesis, if there is one. -/
def untilClose : List Char → Option (List Char)
  | [] => none
  | c :: cs => if c = ')' then some [] else (untilClose cs).map fun t => c :: t

/-- The text a label shows in parentheses: what stands between its first opening
parenthesis and the next closing one. -/
def parenthesized : List Char → Option (List Char)
  | [] => none
  | c :: cs => if c = '(' then untilClose cs else parenthesized cs

/-- The path a menu label shows in parentheses. -/
def labelPath (label : String) : Option String :=
  (parenthesized label.data).map String.mk

/-- The names a relative path consists of. -/
def pathNames (path : String) : List String :=
  (splitSlash path.data).map String.mk

/-! ## Sample worlds of the init flow -/

/-- A world whose listing is empty and in which every download fails. -/
def emptyListingWorld : FetchWorld :=
  { listing := .response 200 "" (.ok []),
    get := fun _ _ => .transportError "down",
    writeFile := fun _ _ _ => none }

/-- A world in which every step of `runInit` succeeds, with the flags given. -/
def sampleInitWorld (noGitHub : Bool) (env : Env) : InitWorld :=
  { projectName := "acme-poc",
    customerName := "Acme Corp",
    noGitHub := noGitHub,
    promptProjectName := .ok "presales-project",
    promptCustomerName := .ok "Acme Corp",
    stat := some "no such file or directory",
    confirmOverwrite := none,
    removeAll := none,
    fs := emptyFS,
    layout := DirectoryStructure,
    prompts := emptyListingWorld,
    templates := emptyListingWorld,
    writeFile := fun _ _ => none,
    env := env }

/-- A world in which the token is set and the organization endpoint answers 500. -/
def envOrgDown : Env :=
  { GITHUB_PAT := "tok",
    post := fun _ _ _ => .response 500 "down" (.error "EOF"),
    run := fun _ _ => none }

/-- A world without a token. -/
def envNoToken : Env :=
  { GITHUB_PAT := "",
    post := fun _ _ _ => .transportError "unused",
    run := fun _ _ => none }

/-- A world of two templates in which the download of the first fails. -/
def templateWorld : FetchWorld :=
  { listing := .transportError "unused",
    get := fun position url =>
      if position = 0 then .response 404 (.ok "") else .response 200 (.ok ("<" ++ url)),
    writeFile := fun _ _ _ => none }


/-! # Theorems -/

/-! ## Strings -/

theorem listContains_iff (substr l : List Char) :
    listContains substr l = true ↔ substr <:+: l := by
  induction l with
  | nil => simp [listContains, List.isEmpty_iff]
  | cons c cs ih =>
    simp only [listContains, Bool.or_eq_true, ih, List.infix_cons_iff, List.isPrefixOf_iff_prefix]

theorem stringsContains_append (a b c : String) : stringsContains (a ++ b ++ c) b = true := by
  unfold stringsContains
  rw [listContains_iff]
  exact ⟨a.data, c.data, by simp [String.data_append]⟩

theorem stringsContains_append_right (a b : String) : stringsContains (a ++ b) b = true := by
  unfold stringsContains
  rw [listContains_iff]
  exact ⟨a.data, [], by simp [String.data_append]⟩

/-! ## Repository-name sanitization -/

theorem char_le_iff (a b : Char) : a ≤ b ↔ a.toNat ≤ b.toNat :=
  Iff.rfl

theorem mem_alphabet_of_range (r : Char) (lo hi : Nat) (h1 : lo ≤ r.toNat) (h2 : r.toNat ≤ hi)
    (hall : ∀ n, lo ≤ n → n ≤ hi → Char.ofNat n ∈ repoNameAlphabet) : r ∈ repoNameAlphabet := by
  have := hall r.toNat h1 h2
  rwa [Char.ofNat_toNat] at this

/-- The condition in the source accepts exactly the characters of `[A-Za-z0-9_-]`. -/
theorem isRepoNameRune_iff (r : Char) : isRepoNameRune r = true ↔ r ∈ repoNameAlphabet := by
  constructor
  · intro h
    simp only [isRepoNameRune, Bool.or_eq_true, Bool.and_eq_true, decide_eq_true_eq, beq_iff_eq,
      char_le_iff] at h
    rcases h with (((⟨h1, h2⟩ | ⟨h1, h2⟩) | ⟨h1, h2⟩) | h) | h
    · refine mem_alphabet_of_range r 97 122 h1 h2 ?_
      intro n a1 a2
      interval_cases n <;> decide
    · refine mem_alphabet_of_range r 65 90 h1 h2 ?_
      intro n a1 a2
      interval_cases n <;> decide
    · refine mem_alphabet_of_range r 48 57 h1 h2 ?_
      intro n a1 a2
      interval_cases n <;> decide
    · subst h; decide
    · subst h; decide
  · intro h
    have hall : ∀ c ∈ repoNameAlphabet, isRepoNameRune c = true := by decide
    exact hall r h

theorem sanitizeRune_eq (r : Char) :
    sanitizeRune r = if r ∈ repoNameAlphabet then r else '-' := by
  unfold sanitizeRune
  by_cases h : r ∈ repoNameAlphabet
  · simp [h, (isRepoNameRune_iff r).2 h]
  · have : isRepoNameRune r = false := by
      cases hb : isRepoNameRune r with
      | false => rfl
      | true => exact absurd ((isRepoNameRune_iff r).1 hb) h
    simp [h, this]

theorem sanitizeRune_mem (r : Char) : sanitizeRune r ∈ repoNameAlphabet := by
  rw [sanitizeRune_eq]
  by_cases h : r ∈ repoNameAlphabet
  · simp [h]
  · simp only [h, if_false]; decide

theorem sanitizeRune_idem (r : Char) : sanitizeRune (sanitizeRune r) = sanitizeRune r := by
  rw [sanitizeRune_eq (sanitizeRune r)]
  simp [sanitizeRune_mem r]

theorem sanitizeRepoName_mem_alphabet (projectName : String) :
    ∀ c ∈ (sanitizeRepoName projectName).data, c ∈ repoNameAlphabet := by
  intro c hc
  simp only [sanitizeRepoName, stringsMap, List.mem_map] at hc
  obtain ⟨r, _, rfl⟩ := hc
  exact sanitizeRune_mem r

/-- C1: for every project name the sanitized repository name has the same number of
characters; at each position a character of `[A-Za-z0-9_-]` is kept and any other
character becomes a hyphen; the result contains only characters of `[A-Za-z0-9_-]`; and
sanitizing a sanitized name changes nothing. -/
theorem sanitizeRepoName_spec (projectName : String) :
    (sanitizeRepoName projectName).length = projectName.length ∧
    (∀ i : Nat, (sanitizeRepoName projectName).data[i]? =
      (projectName.data[i]?).map fun c => if c ∈ repoNameAlphabet then c else '-') ∧
    (∀ c ∈ (sanitizeRepoName projectName).data, c ∈ repoNameAlphabet) ∧
    sanitizeRepoName (sanitizeRepoName projectName) = sanitizeRepoName projectName := by
  refine ⟨?_, ?_, ?_, ?_⟩
  · simp only [sanitizeRepoName, stringsMap, String.length, List.length_map]
  · intro i
    simp only [sanitizeRepoName, stringsMap, List.getElem?_map]
    cases projectName.data[i]? with
    | none => rfl
    | some c => simp [sanitizeRune_eq]
  · exact sanitizeRepoName_mem_alphabet projectName
  · simp only [sanitizeRepoName, stringsMap, List.map_map]
    congr 1
    apply List.map_congr_left
    intro r _
    exact sanitizeRune_idem r

theorem sanitizeRepoName_spec_witness :
    (sanitizeRepoName "Acme Corp/po_c-1").length = "Acme Corp/po_c-1".length ∧
    sanitizeRepoName "Acme Corp/po_c-1" = "Acme-Corp-po_c-1" :=
  ⟨(sanitizeRepoName_spec "Acme Corp/po_c-1").1, by decide⟩

/-! ## Repository creation -/

theorem fmtInt_403 : fmtInt 403 = "403" := by decide

/-- Where the fallback test of `CreateRepository` is negative, the organization call is
the only call and its error is returned. -/
theorem CreateRepository_no_fallback (env : Env) (projectPath projectName customerName e : String)
    (htoken : env.GITHUB_PAT ≠ "")
    (horg : createOrgRepository env env.GITHUB_PAT (sanitizeRepoName projectName)
      ("Presales project for " ++ customerName) = .error e)
    (h403 : stringsContains e "403" = false) (hadmin : stringsContains e "admin access" = false) :
    CreateRepository env projectPath projectName customerName =
      ⟨[.post orgReposURL env.GITHUB_PAT (repoRequestBody (sanitizeRepoName projectName)
        ("Presales project for " ++ customerName))], some e⟩ := by
  simp [CreateRepository, htoken, horg, h403, hadmin]

/-- C2 (violated by the code): with project name "poc-403" and an organization endpoint
answering 422, the error text of `createOrgRepository` carries the repository name and
hence "403"; `CreateRepository` then posts to the user endpoint and, that call
succeeding, returns no error. -/
theorem CreateRepository_422_reaches_user_namespace :
    createOrgRepository envOrgExists "tok" (sanitizeRepoName "poc-403")
        ("Presales project for " ++ "Acme") =
      .error "repository \"poc-403\" already exists in Now-AI-Foundry organization" ∧
    Event.post userReposURL "tok" (repoRequestBody "poc-403" "Presales project for Acme") ∈
      (CreateRepository envOrgExists "poc-403" "poc-403" "Acme").trace ∧
    (CreateRepository envOrgExists "poc-403" "poc-403" "Acme").err = none := by
  decide

/-- C3: when the token is set and the organization endpoint answers 403, whatever the
body, `CreateRepository` posts the same body (same sanitized name and description) to the
user endpoint; if that attempt fails its error is returned and nothing else is done, and
if it succeeds the local git initialization runs with the clone URL it returned and
decides the result. -/
theorem CreateRepository_403_retries_user_namespace (env : Env)
    (projectPath projectName customerName body : String) (decoded : Except String GitHubRepo)
    (htoken : env.GITHUB_PAT ≠ "")
    (horg : env.post orgReposURL env.GITHUB_PAT (repoRequestBody (sanitizeRepoName projectName)
      ("Presales project for " ++ customerName)) = .response 403 body decoded) :
    let reqBody := repoRequestBody (sanitizeRepoName projectName) ("Presales project for " ++ customerName)
    let attempts := [Event.post orgReposURL env.GITHUB_PAT reqBody, Event.print fallbackNote,
      Event.post userReposURL env.GITHUB_PAT reqBody]
    let r := CreateRepository env projectPath projectName customerName
    match createUserRepository env env.GITHUB_PAT (sanitizeRepoName projectName)
        ("Presales project for " ++ customerName) with
    | .error e => r = ⟨attempts, some e⟩
    | .ok repo =>
      let g := initGitRepo env projectPath repo.CloneURL
      r.trace = attempts ++ g.trace ++
          (if g.err = none then [Event.print ("Repository URL: " ++ repo.HTMLURL ++ "\n")] else []) ∧
        r.err = g.err.map fun e => "failed to initialize git: " ++ e := by
  intro reqBody attempts r
  have hmsg : createOrgRepository env env.GITHUB_PAT (sanitizeRepoName projectName)
      ("Presales project for " ++ customerName) =
      .error ("GitHub API returned status " ++ fmtInt 403 ++ ": " ++ body) := by
    simp [createOrgRepository, horg]
  have hc : stringsContains ("GitHub API returned status " ++ fmtInt 403 ++ ": " ++ body) "403" = true := by
    rw [fmtInt_403, String.append_assoc]
    exact stringsContains_append _ _ _
  cases hu : createUserRepository env env.GITHUB_PAT (sanitizeRepoName projectName)
      ("Presales project for " ++ customerName) with
  | error e =>
    simp only [r, attempts, reqBody, CreateRepository, htoken, if_false, hmsg, hc, hu, Bool.true_or, if_true]
  | ok repo =>
    simp only [r, attempts, reqBody, CreateRepository, htoken, if_false, hmsg, hc, hu, Bool.true_or, if_true,
      finishRepository]
    cases hg : (initGitRepo env projectPath repo.CloneURL).err with
    | none => simp
    | some e => simp

theorem CreateRepository_403_retries_user_namespace_witness :
    (CreateRepository envOrgForbidden "acme poc" "acme poc" "Acme").trace =
      [Event.post orgReposURL "tok" (repoRequestBody "acme-poc" "Presales project for Acme"),
        Event.print fallbackNote,
        Event.post userReposURL "tok" (repoRequestBody "acme-poc" "Presales project for Acme")] ++
        (initGitRepo envOrgForbidden "acme poc" "https://github.com/u/acme.git").trace ++
        [Event.print "Repository URL: https://github.com/u/acme\n"] ∧
    (CreateRepository envOrgForbidden "acme poc" "acme poc" "Acme").err = none :=
  CreateRepository_403_retries_user_namespace envOrgForbidden "acme poc" "acme poc" "Acme"
    "Must have admin access" (.error "EOF") (by decide) (by decide)

/-- A customer name without quotes is sent as the object the endpoint expects. -/
theorem repoRequestBody_plain_customer :
    jsonObject (repoRequestBody (sanitizeRepoName "acme-poc") ("Presales project for " ++ "Acme Corp")) =
      some [("name", .str "acme-poc"), ("description", .str "Presales project for Acme Corp"),
        ("private", .bool true), ("auto_init", .bool false)] := by
  decide

theorem jsonScanString_plain (s : List Char) (hs : ∀ c ∈ s, PlainRune c) :
    ∀ (acc rest : List Char),
      jsonScanString (s ++ '"' :: rest) acc = some (⟨acc.reverse ++ s⟩, rest) := by
  induction s with
  | nil => intro acc rest; simp [jsonScanString]
  | cons c cs ih =>
    intro acc rest
    obtain ⟨h1, h2, h3⟩ := hs c (List.mem_cons_self _ _)
    have ih2 := ih (fun x hx => hs x (List.mem_cons_of_mem _ hx)) (c :: acc) rest
    rw [List.cons_append, jsonScanString]
    · simp only [h2, false_or, Nat.not_lt.2 h3, if_false, ih2, List.reverse_cons,
        List.append_assoc, List.singleton_append]
    · intro hk
      exact h1 hk
    · intro a b c2 d rest2 hk _
      exact h2 hk
    · intro e rest2 hk _
      exact h2 hk


theorem plainRune_of_alphabet (c : Char) (h : c ∈ repoNameAlphabet) : PlainRune c := by
  have hall : ∀ x ∈ repoNameAlphabet, x ≠ '"' ∧ x ≠ '\\' ∧ 32 ≤ x.toNat := by decide
  exact hall c h

theorem repoRequestBody_data (repoName description : String) :
    (repoRequestBody repoName description).data =
      "\x7b\n\t\t\"name\": \"".data ++ (repoName.data ++ ('"' ::
        (",\n\t\t\"description\": \"".data ++ (description.data ++ ('"' ::
          ",\n\t\t\"private\": true,\n\t\t\"auto_init\": false\n\t\x7d".data))))) := by
  simp only [repoRequestBody, String.data_append]
  simp

/-- For a customer name free of quotes, backslashes and control characters, the body
posted is the JSON object with exactly the four fields of the template. -/
theorem repoRequestBody_json (projectName customerName : String)
    (h : ∀ c ∈ customerName.data, PlainRune c) :
    jsonObject (repoRequestBody (sanitizeRepoName projectName)
        ("Presales project for " ++ customerName)) =
      some [("name", .str (sanitizeRepoName projectName)),
        ("description", .str ("Presales project for " ++ customerName)),
        ("private", .bool true), ("auto_init", .bool false)] := by
  have hname : ∀ c ∈ (sanitizeRepoName projectName).data, PlainRune c :=
    fun c hc => plainRune_of_alphabet c (sanitizeRepoName_mem_alphabet projectName c hc)
  have hdesc : ∀ c ∈ ("Presales project for " ++ customerName).data, PlainRune c := by
    intro c hc
    rw [String.data_append, List.mem_append] at hc
    rcases hc with hc | hc
    · have hall : ∀ x ∈ "Presales project for ".data, x ≠ '"' ∧ x ≠ '\\' ∧ 32 ≤ x.toNat := by decide
      exact hall c hc
    · exact h c hc
  generalize sanitizeRepoName projectName = repoName at hname ⊢
  generalize "Presales project for " ++ customerName = description at hdesc ⊢
  have s1 := jsonScanString_plain repoName.data hname
  have s2 := jsonScanString_plain description.data hdesc
  have s3 := jsonScanString_plain "name".data (by decide)
  have s4 := jsonScanString_plain "description".data (by decide)
  have s5 := jsonScanString_plain "private".data (by decide)
  have s6 := jsonScanString_plain "auto_init".data (by decide)
  unfold jsonObject
  rw [repoRequestBody_data]
  have hlen : 4 ≤ ("\x7b\n\t\t\"name\": \"".data ++ (repoName.data ++ ('"' ::
        (",\n\t\t\"description\": \"".data ++ (description.data ++ ('"' ::
          ",\n\t\t\"private\": true,\n\t\t\"auto_init\": false\n\t\x7d".data)))))).length := by
    simp only [List.length_append, List.length_cons]
    simp
    omega
  obtain ⟨k, hk⟩ := Nat.exists_eq_add_of_le hlen
  rw [hk, Nat.add_comm 4 k]
  have e1 : "\x7b\n\t\t\"name\": \"".data =
      '\x7b' :: '\n' :: '\t' :: '\t' :: '"' :: ("name".data ++ '"' :: [':', ' ', '"']) := by decide
  have e2 : ",\n\t\t\"description\": \"".data =
      ',' :: '\n' :: '\t' :: '\t' :: '"' :: ("description".data ++ '"' :: [':', ' ', '"']) := by
    decide
  have e3 : ",\n\t\t\"private\": true,\n\t\t\"auto_init\": false\n\t\x7d".data =
      ',' :: '\n' :: '\t' :: '\t' :: '"' :: ("private".data ++ '"' ::
        (':' :: ' ' :: 't' :: 'r' :: 'u' :: 'e' :: ',' :: '\n' :: '\t' :: '\t' :: '"' ::
          ("auto_init".data ++ '"' ::
            [':', ' ', 'f', 'a', 'l', 's', 'e', '\n', '\t', '\x7d']))) := by
    decide
  rw [e1, e2, e3]
  clear e1 e2 e3 hk hlen
  generalize h3 : "name".data = k3 at s3
  generalize h4 : "description".data = k4 at s4
  generalize h5 : "private".data = k5 at s5
  generalize h6 : "auto_init".data = k6 at s6
  have n3 : ("name" : String) = ⟨k3⟩ := by rw [← h3]
  have n4 : ("description" : String) = ⟨k4⟩ := by rw [← h4]
  have n5 : ("private" : String) = ⟨k5⟩ := by rw [← h5]
  have n6 : ("auto_init" : String) = ⟨k6⟩ := by rw [← h6]
  simp only [List.cons_append, List.append_assoc, List.nil_append]
  simp [jsonSkipWs, jsonScanMembers, jsonScanValue, s1, s2, s3, s4, s5, s6, n3, n4, n5, n6]

/-- C4 (violated by the code): for the customer name `Acme "East"` the body posted by
`createOrgRepository` carries the quotes of the name unescaped, so the description
literal ends after `Acme ` and the text is not a JSON object. -/
theorem repoRequestBody_quoted_customer_not_json :
    (CreateRepository envOrgCreated "acme-poc" "acme-poc" "Acme \"East\"").trace.head? =
      some (Event.post orgReposURL "tok"
        ("\x7b\n\t\t\"name\": \"acme-poc\",\n\t\t\"description\": \"Presales project for Acme \"East\"\"," ++
          "\n\t\t\"private\": true,\n\t\t\"auto_init\": false\n\t\x7d")) ∧
    jsonObject (repoRequestBody (sanitizeRepoName "acme-poc") ("Presales project for " ++ "Acme \"East\"")) =
      none := by
  decide

/-! ## Inference client -/

/-- C5: when the endpoint answers 200 and the body decodes, `ExecutePrompt` returns the
content of the first choice without error if there is one, and the error
"no response from API" with empty text if the list of choices is empty. -/
theorem ExecutePrompt_choices (c : Client) (promptContent userInput body : String)
    (apiResp : Response)
    (h : c.client ("Bearer " ++ c.apiKey) (buildRequest promptContent userInput) =
      .response 200 body (.ok apiResp)) :
    (apiResp.Choices = [] →
      (ExecutePrompt c promptContent userInput).text = "" ∧
      (ExecutePrompt c promptContent userInput).err = some "no response from API") ∧
    (∀ first rest, apiResp.Choices = first :: rest →
      (ExecutePrompt c promptContent userInput).text = first.Message.Content ∧
      (ExecutePrompt c promptContent userInput).err = none) := by
  constructor
  · intro hc
    simp [ExecutePrompt, h, hc]
  · intro first rest hc
    simp [ExecutePrompt, h, hc]

theorem ExecutePrompt_choices_witness :
    ((ExecutePrompt (constClient (.response 200 "" (.ok ⟨[]⟩))) "p" "u").text = "" ∧
      (ExecutePrompt (constClient (.response 200 "" (.ok ⟨[]⟩))) "p" "u").err =
        some "no response from API") ∧
    ((ExecutePrompt (constClient (.response 200 "" (.ok ⟨[⟨⟨"hi"⟩⟩, ⟨⟨"ho"⟩⟩]⟩))) "p" "u").text = "hi" ∧
      (ExecutePrompt (constClient (.response 200 "" (.ok ⟨[⟨⟨"hi"⟩⟩, ⟨⟨"ho"⟩⟩]⟩))) "p" "u").err = none) :=
  ⟨(ExecutePrompt_choices (constClient (.response 200 "" (.ok ⟨[]⟩))) "p" "u" "" ⟨[]⟩ rfl).1 rfl,
    (ExecutePrompt_choices (constClient (.response 200 "" (.ok ⟨[⟨⟨"hi"⟩⟩, ⟨⟨"ho"⟩⟩]⟩))) "p" "u" ""
      ⟨[⟨⟨"hi"⟩⟩, ⟨⟨"ho"⟩⟩]⟩ rfl).2 ⟨⟨"hi"⟩⟩ [⟨⟨"ho"⟩⟩] rfl⟩

/-- C6: when the endpoint answers with a status other than 200, whatever the body,
`ExecutePrompt` returns the empty text and an error whose message is
"OpenRouter API error (status N): BODY", which contains the status code and the body. -/
theorem ExecutePrompt_status_error (c : Client) (promptContent userInput body : String)
    (status : Nat) (decoded : Except String Response)
    (h : c.client ("Bearer " ++ c.apiKey) (buildRequest promptContent userInput) =
      .response status body decoded)
    (hstatus : status ≠ 200) :
    (ExecutePrompt c promptContent userInput).text = "" ∧
    ∃ msg, (ExecutePrompt c promptContent userInput).err = some msg ∧
      msg = "OpenRouter API error (status " ++ fmtInt status ++ "): " ++ body ∧
      stringsContains msg (fmtInt status) = true ∧ stringsContains msg body = true := by
  refine ⟨by simp [ExecutePrompt, h, hstatus], _, by simp [ExecutePrompt, h, hstatus], rfl, ?_, ?_⟩
  · rw [String.append_assoc]
    exact stringsContains_append _ _ _
  · exact stringsContains_append_right _ _

theorem ExecutePrompt_status_error_witness :
    (ExecutePrompt (constClient (.response 429 "rate limited" (.error "EOF"))) "p" "u").text = "" ∧
    ∃ msg, (ExecutePrompt (constClient (.response 429 "rate limited" (.error "EOF"))) "p" "u").err =
        some msg ∧
      msg = "OpenRouter API error (status " ++ fmtInt 429 ++ "): " ++ "rate limited" ∧
      stringsContains msg (fmtInt 429) = true ∧ stringsContains msg "rate limited" = true :=
  ExecutePrompt_status_error (constClient (.response 429 "rate limited" (.error "EOF"))) "p" "u"
    "rate limited" 429 (.error "EOF") rfl (by decide)

/-- C7: the request `ExecutePrompt` sends names the default model and has exactly two
messages: the system message with the prompt text, then the user message with the user
input, or with the fallback instruction when the user input is empty. -/
theorem ExecutePrompt_request (c : Client) (promptContent userInput : String) :
    (ExecutePrompt c promptContent userInput).sent =
      { Model := "google/gemini-2.0-flash-exp:free",
        Messages := [{ Role := "system", Content := promptContent },
          { Role := "user",
            Content := if userInput = "" then "Please provide guidance based on the system prompt."
              else userInput }] } := by
  have hs : (ExecutePrompt c promptContent userInput).sent = buildRequest promptContent userInput := by
    simp only [ExecutePrompt]
    split
    · rfl
    · split
      · rfl
      · split
        · rfl
        · split <;> rfl
  rw [hs]
  rfl

theorem ExecutePrompt_request_witness :
    (ExecutePrompt (constClient (.transportError "down")) "You are a coach." "").sent =
      { Model := "google/gemini-2.0-flash-exp:free",
        Messages := [{ Role := "system", Content := "You are a coach." },
          { Role := "user", Content := "Please provide guidance based on the system prompt." }] } :=
  ExecutePrompt_request (constClient (.transportError "down")) "You are a coach." ""

/-! ## Paths -/

theorem splitSlash_ne_nil (l : List Char) : splitSlash l ≠ [] := by
  cases l with
  | nil => simp [splitSlash]
  | cons c cs =>
    by_cases hc : c = '/'
    · simp [splitSlash, hc]
    · cases hs : splitSlash cs <;> simp [splitSlash, hc, hs]

theorem splitSlash_cons_of_ne (c : Char) (cs : List Char) (hc : c ≠ '/') :
    ∃ h t, splitSlash cs = h :: t ∧ splitSlash (c :: cs) = (c :: h) :: t := by
  cases hs : splitSlash cs with
  | nil => exact absurd hs (splitSlash_ne_nil cs)
  | cons h t => exact ⟨h, t, rfl, by simp [splitSlash, hc, hs]⟩

theorem splitSlash_append_slash (a b : List Char) :
    splitSlash (a ++ '/' :: b) = splitSlash a ++ splitSlash b := by
  induction a with
  | nil => simp [splitSlash]
  | cons c cs ih =>
    by_cases hc : c = '/'
    · simp [splitSlash, hc, ih]
    · obtain ⟨h, t, hs, hcs⟩ := splitSlash_cons_of_ne c cs hc
      obtain ⟨h2, t2, hs2, hcs2⟩ := splitSlash_cons_of_ne c (cs ++ '/' :: b) hc
      rw [ih, hs, List.cons_append] at hs2
      obtain ⟨e1, e2⟩ := List.cons.inj hs2
      rw [List.cons_append, hcs2, hcs, List.cons_append, ← e1, ← e2]

theorem splitSlash_of_no_slash (l : List Char) (h : '/' ∉ l) : splitSlash l = [l] := by
  induction l with
  | nil => rfl
  | cons c cs ih =>
    have hc : c ≠ '/' := fun e => h (by simp [e])
    have hcs : '/' ∉ cs := fun e => h (List.mem_cons_of_mem _ e)
    simp [splitSlash, hc, ih hcs]

theorem no_slash_of_mem_splitSlash (l e : List Char) (h : e ∈ splitSlash l) : '/' ∉ e := by
  induction l generalizing e with
  | nil =>
    simp only [splitSlash, List.mem_singleton] at h
    subst h
    simp
  | cons c cs ih =>
    by_cases hc : c = '/'
    · simp only [splitSlash, hc, if_true, List.mem_cons] at h
      rcases h with h | h
      · subst h; simp
      · exact ih e h
    · obtain ⟨hd, t, hs, hcs⟩ := splitSlash_cons_of_ne c cs hc
      rw [hcs, List.mem_cons] at h
      rcases h with h | h
      · subst h
        have := ih hd (by rw [hs]; exact List.mem_cons_self _ _)
        intro hm
        rcases List.mem_cons.1 hm with hm | hm
        · exact hc hm.symm
        · exact this hm
      · exact ih e (by rw [hs]; exact List.mem_cons_of_mem _ h)

theorem splitSlash_joinSlash (comps : List String) (hne : comps ≠ [])
    (h : ∀ c ∈ comps, '/' ∉ c.data) : splitSlash (joinSlash comps) = comps.map String.data := by
  induction comps with
  | nil => exact absurd rfl hne
  | cons c rest ih =>
    cases rest with
    | nil => simpa [joinSlash] using splitSlash_of_no_slash c.data (h c (List.mem_cons_self _ _))
    | cons d rest2 =>
      have h1 := splitSlash_of_no_slash c.data (h c (List.mem_cons_self _ _))
      have h2 := ih (by simp) (fun x hx => h x (List.mem_cons_of_mem _ hx))
      simp only [joinSlash, splitSlash_append_slash, h1, h2, List.map_cons, List.singleton_append]

theorem head_joinSlash (c : String) (rest : List String) (hc : c.data ≠ []) :
    (joinSlash (c :: rest)).head? = c.data.head? := by
  cases hcd : c.data with
  | nil => exact absurd hcd hc
  | cons x xs => cases rest <;> simp [joinSlash, hcd]

theorem stackOK_nil (rooted : Bool) : StackOK rooted [] :=
  ⟨by simp, rfl⟩

theorem string_eq_dotdot (s : String) : s = ".." ↔ s.data = ['.', '.'] := by
  constructor
  · intro h; subst h; rfl
  · intro h; exact String.ext h

theorem cleanPush_name (rooted : Bool) (stack : List String) (e : List Char) (h1 : e ≠ [])
    (h2 : e ≠ ['.']) (h3 : e ≠ ['.', '.']) : cleanPush rooted stack e = ⟨e⟩ :: stack := by
  simp [cleanPush, h1, h2, h3]

theorem stackOK_push (rooted : Bool) (stack : List String) (e : List Char)
    (hs : StackOK rooted stack) (he : '/' ∉ e) : StackOK rooted (cleanPush rooted stack e) := by
  obtain ⟨hall, hfold⟩ := hs
  by_cases h1 : e = [] ∨ e = ['.']
  · have hcp : cleanPush rooted stack e = stack := by simp [cleanPush, h1]
    rw [hcp]
    exact ⟨hall, hfold⟩
  · have h1a : e ≠ [] := fun k => h1 (Or.inl k)
    have h1b : e ≠ ['.'] := fun k => h1 (Or.inr k)
    by_cases h2 : e = ['.', '.']
    · subst h2
      cases stack with
      | nil =>
        cases rooted
        · refine ⟨?_, ?_⟩
          · intro c hc
            simp only [cleanPush] at hc
            simp at hc
            subst hc
            decide
          · decide
        · exact ⟨by simp [cleanPush], by simp [cleanPush]⟩
      | cons top below =>
        by_cases ht : top = ".."
        · subst ht
          have hcp : cleanPush rooted (".." :: below) ['.', '.'] = ".." :: ".." :: below := by
            simp [cleanPush]
          rw [hcp]
          refine ⟨?_, ?_⟩
          · intro c hc
            rcases List.mem_cons.1 hc with hc | hc
            · subst hc; decide
            · exact hall c hc
          · rw [List.reverse_cons, List.map_append, List.foldl_append, hfold]
            simp [cleanPush]
        · have hcp : cleanPush rooted (top :: below) ['.', '.'] = below := by
            simp [cleanPush, ht]
          rw [hcp]
          refine ⟨fun c hc => hall c (List.mem_cons_of_mem _ hc), ?_⟩
          rw [List.reverse_cons, List.map_append, List.foldl_append] at hfold
          have htop := hall top (List.mem_cons_self _ _)
          have hne : top.data ≠ ['.', '.'] := fun k => ht ((string_eq_dotdot top).2 k)
          simp only [List.map_cons, List.map_nil, List.foldl_cons, List.foldl_nil] at hfold
          rw [cleanPush_name _ _ _ htop.1 htop.2.1 hne] at hfold
          exact (List.cons.inj hfold).2
    · rw [cleanPush_name _ _ _ h1a h1b h2]
      refine ⟨?_, ?_⟩
      · intro c hc
        rcases List.mem_cons.1 hc with hc | hc
        · subst hc; exact ⟨h1a, h1b, he⟩
        · exact hall c hc
      · rw [List.reverse_cons, List.map_append, List.foldl_append, hfold]
        simp [cleanPush_name _ _ _ h1a h1b h2]

theorem stackOK_foldl (rooted : Bool) (es : List (List Char)) (stack : List String)
    (hs : StackOK rooted stack) (he : ∀ e ∈ es, '/' ∉ e) :
    StackOK rooted (es.foldl (cleanPush rooted) stack) := by
  induction es generalizing stack with
  | nil => exact hs
  | cons e rest ih =>
    exact ih _ (stackOK_push rooted stack e hs (he e (List.mem_cons_self _ _)))
      (fun x hx => he x (List.mem_cons_of_mem _ hx))

theorem stackOK_lexResolve (path : String) :
    StackOK (lexResolve path).rooted (lexResolve path).comps.reverse := by
  simp only [lexResolve, List.reverse_reverse]
  exact stackOK_foldl _ _ _ (stackOK_nil _) (fun e he => no_slash_of_mem_splitSlash _ e he)

/-- Resolving the rendering of a cleaned path gives the path back. -/
theorem lexResolve_render (n : Node) (h : StackOK n.rooted n.comps.reverse) :
    lexResolve n.render = n := by
  obtain ⟨rooted, comps⟩ := n
  obtain ⟨hall, hfold⟩ := h
  simp only [List.reverse_reverse] at hfold
  have hall2 : ∀ c ∈ comps, c.data ≠ [] ∧ c.data ≠ ['.'] ∧ '/' ∉ c.data :=
    fun c hc => hall c (List.mem_reverse.2 hc)
  cases rooted with
  | true =>
    cases comps with
    | nil => decide
    | cons c rest =>
      have hsp := splitSlash_joinSlash (c :: rest) (by simp) (fun x hx => (hall2 x hx).2.2)
      simp only [Node.render, if_true, lexResolve, List.head?_cons, decide_True, splitSlash,
        List.foldl_cons, hsp]
      have h0 : cleanPush true [] [] = [] := by simp [cleanPush]
      rw [h0, hfold, List.reverse_reverse]
  | false =>
    cases comps with
    | nil => decide
    | cons c rest =>
      have hsp := splitSlash_joinSlash (c :: rest) (by simp) (fun x hx => (hall2 x hx).2.2)
      have hc := hall2 c (List.mem_cons_self _ _)
      have hhead : (joinSlash (c :: rest)).head? ≠ some '/' := by
        rw [head_joinSlash c rest hc.1]
        cases hcd : c.data with
        | nil => exact absurd hcd hc.1
        | cons x xs =>
          intro k
          simp only [List.head?_cons, Option.some.injEq] at k
          exact hc.2.2 (by rw [hcd, k]; exact List.mem_cons_self _ _)
      simp only [Node.render, Bool.false_eq_true, if_false, List.cons_ne_nil, lexResolve, hhead,
        decide_False, hsp, hfold, List.reverse_reverse]

theorem lexResolve_clean (path : String) : lexResolve (filepathClean path) = lexResolve path :=
  lexResolve_render _ (stackOK_lexResolve path)

theorem lexResolve_empty : lexResolve "" = ⟨false, []⟩ := by
  decide

theorem isPathElement_data (b : String) (hb : IsPathElement b) :
    b.data ≠ [] ∧ b.data ≠ ['.'] ∧ b.data ≠ ['.', '.'] ∧ '/' ∉ b.data := by
  obtain ⟨h1, h2, h3, h4⟩ := hb
  refine ⟨?_, ?_, ?_, h2⟩
  · intro k; exact h1 (String.ext k)
  · intro k; exact h3 (String.ext k)
  · intro k; exact h4 (String.ext k)

/-- Joining a single path element onto a path names the child of that name. -/
theorem lexResolve_join_element (a b : String) (hb : IsPathElement b) :
    lexResolve (filepathJoin a b) = ⟨(lexResolve a).rooted, (lexResolve a).comps ++ [b]⟩ := by
  obtain ⟨hb1, hb2, hb3, hb4⟩ := isPathElement_data b hb
  have hbne : b ≠ "" := hb.1
  by_cases ha : a = ""
  · subst ha
    simp only [filepathJoin, ne_eq, not_true_eq_false, if_false, hbne, not_false_eq_true, if_true,
      lexResolve_clean, lexResolve_empty, List.nil_append]
    have hhead : b.data.head? ≠ some '/' := by
      cases hbd : b.data with
      | nil => exact absurd hbd hb1
      | cons x xs =>
        intro k
        simp only [List.head?_cons, Option.some.injEq] at k
        exact hb4 (by rw [hbd, k]; exact List.mem_cons_self _ _)
    simp only [lexResolve, hhead, decide_False, splitSlash_of_no_slash _ hb4, List.foldl_cons,
      List.foldl_nil, cleanPush_name _ _ _ hb1 hb2 hb3, List.reverse_cons, List.reverse_nil,
      List.nil_append]
  · have hane : a.data ≠ [] := fun k => ha (String.ext k)
    simp only [filepathJoin, ne_eq, ha, not_false_eq_true, if_true, lexResolve_clean]
    have hdata : (a ++ "/" ++ b).data = a.data ++ '/' :: b.data := by
      simp [String.data_append]
    have hhead : (a.data ++ '/' :: b.data).head? = a.data.head? := by
      cases had : a.data with
      | nil => exact absurd had hane
      | cons x xs => simp
    simp only [lexResolve, hdata, hhead, splitSlash_append_slash, splitSlash_of_no_slash _ hb4,
      List.foldl_append, List.foldl_cons, List.foldl_nil, cleanPush_name _ _ _ hb1 hb2 hb3,
      List.reverse_cons, List.reverse_reverse]

/-! ## `os.MkdirAll` -/

theorem isDir_iff (fs : FS) (n : Node) :
    fs.isDir n = true ↔ (∀ c ∈ n.comps, c = "..") ∨ n ∈ fs.dirs := by
  simp [FS.isDir]

theorem isDir_root (fs : FS) (rooted : Bool) : fs.isDir ⟨rooted, []⟩ = true := by
  simp [FS.isDir]

theorem mkdirAllRev_deny (fs : FS) (rooted : Bool) (l : List String) :
    (mkdirAllRev fs rooted l).1.deny = fs.deny := by
  induction l with
  | nil => rfl
  | cons name parentRev ih =>
    simp only [mkdirAllRev]
    split
    · rfl
    · split
      · rename_i fs1 e heq
        rw [← ih, heq]
      · rename_i fs1 heq
        have h1 : fs1.deny = fs.deny := by rw [← ih, heq]
        split <;> exact h1

theorem mkdirAllRev_mono (fs : FS) (rooted : Bool) (l : List String) (n : Node)
    (h : fs.isDir n = true) : (mkdirAllRev fs rooted l).1.isDir n = true := by
  induction l with
  | nil => exact h
  | cons name parentRev ih =>
    simp only [mkdirAllRev]
    split
    · exact h
    · split
      · rename_i fs1 e heq
        rw [heq] at ih; exact ih
      · rename_i fs1 heq
        rw [heq] at ih
        split
        · exact ih
        · rw [isDir_iff] at ih ⊢
          rcases ih with ih | ih
          · exact Or.inl ih
          · exact Or.inr (List.mem_cons_of_mem _ ih)

theorem mkdirAllRev_made (fs : FS) (rooted : Bool) (l : List String)
    (h : (mkdirAllRev fs rooted l).2 = none) :
    (mkdirAllRev fs rooted l).1.isDir ⟨rooted, l.reverse⟩ = true := by
  cases l with
  | nil => exact isDir_root _ _
  | cons name parentRev =>
    simp only [mkdirAllRev] at h ⊢
    split
    · assumption
    · rename_i hnot
      simp only [hnot, Bool.false_eq_true, if_false] at h
      split
      · rename_i fs1 e heq
        rw [heq] at h
        simp at h
      · rename_i fs1 heq
        rw [heq] at h
        split
        · rename_i e hd
          simp only [List.reverse_cons] at hd
          simp [hd] at h
        · rw [isDir_iff]
          exact Or.inr (List.mem_cons_self _ _)

theorem mkdirAllRev_existing (fs : FS) (rooted : Bool) (l : List String)
    (h : fs.isDir ⟨rooted, l.reverse⟩ = true) : mkdirAllRev fs rooted l = (fs, none) := by
  cases l with
  | nil => rfl
  | cons name parentRev => simp only [mkdirAllRev, h, if_true]

theorem mkdirAllRev_allowed (fs : FS) (rooted : Bool) (l : List String)
    (h : ∀ n, fs.deny n = none) : (mkdirAllRev fs rooted l).2 = none := by
  induction l with
  | nil => rfl
  | cons name parentRev ih =>
    simp only [mkdirAllRev]
    split
    · rfl
    · split
      · rename_i fs1 e heq
        rw [heq] at ih
        exact absurd ih (by simp)
      · rename_i fs1 heq
        have h1 : fs1.deny = fs.deny := by rw [← mkdirAllRev_deny fs rooted parentRev, heq]
        rw [h1, h]

theorem closed_prefix (fs : FS) (hc : fs.Closed) (rooted : Bool) (cs ds : List String)
    (h : fs.isDir ⟨rooted, cs ++ ds⟩ = true) : fs.isDir ⟨rooted, cs⟩ = true := by
  induction ds using List.reverseRecOn with
  | nil => simpa using h
  | append_singleton ds d ih =>
    apply ih
    apply hc rooted (cs ++ ds) d
    simpa [List.append_assoc] using h

theorem mkdirAllRev_closed (fs : FS) (rooted : Bool) (l : List String) (hc : fs.Closed) :
    (mkdirAllRev fs rooted l).1.Closed := by
  induction l with
  | nil => exact hc
  | cons name parentRev ih =>
    have hmade := mkdirAllRev_made fs rooted parentRev
    simp only [mkdirAllRev]
    split
    · exact hc
    · split
      · rename_i fs1 e heq
        rw [heq] at ih; exact ih
      · rename_i fs1 heq
        rw [heq] at ih hmade
        split
        · exact ih
        · intro r parent nm hd
          rw [isDir_iff] at hd ⊢
          rcases hd with hd | hd
          · left
            intro c hcm
            exact hd c (List.mem_append_left _ hcm)
          · rcases List.mem_cons.1 hd with hd | hd
            · simp only [List.reverse_cons, Node.mk.injEq] at hd
              obtain ⟨hr, hp⟩ := hd
              obtain ⟨hp1, _⟩ := List.append_inj' hp rfl
              subst hr hp1
              have := hmade rfl
              rw [isDir_iff] at this
              rcases this with h1 | h1
              · exact Or.inl h1
              · exact Or.inr (List.mem_cons_of_mem _ h1)
            · have := ih r parent nm ((isDir_iff _ _).2 (Or.inr hd))
              rw [isDir_iff] at this
              rcases this with h1 | h1
              · exact Or.inl h1
              · exact Or.inr (List.mem_cons_of_mem _ h1)

/-- On a file system in which parents exist, a successful `MkdirAll` adds exactly the
directory and its ancestors. -/
theorem mkdirAllRev_dirs (fs : FS) (rooted : Bool) (l : List String) (hc : fs.Closed)
    (h : (mkdirAllRev fs rooted l).2 = none) (m : Node) :
    (mkdirAllRev fs rooted l).1.isDir m = true ↔
      fs.isDir m = true ∨ (m.rooted = rooted ∧ m.comps <+: l.reverse) := by
  induction l with
  | nil =>
    simp only [mkdirAllRev, List.reverse_nil, List.prefix_nil]
    constructor
    · exact Or.inl
    · rintro (h1 | ⟨_, h2⟩)
      · exact h1
      · rw [isDir_iff]; left; rw [h2]; simp
  | cons name parentRev ih =>
    simp only [mkdirAllRev] at h ⊢
    split
    · rename_i hex
      constructor
      · exact Or.inl
      · rintro (h1 | ⟨h2, h3⟩)
        · exact h1
        · obtain ⟨t, ht⟩ := h3
          obtain ⟨mr, mc⟩ := m
          simp only at h2 ht
          subst h2
          exact closed_prefix fs hc mr mc t (by rw [ht]; exact hex)
    · rename_i hnot
      simp only [hnot, Bool.false_eq_true, if_false] at h
      split
      · rename_i fs1 e heq
        rw [heq] at h
        simp at h
      · rename_i fs1 heq
        rw [heq] at h ih
        have ih2 := ih rfl
        split
        · rename_i e hd
          simp only [List.reverse_cons] at hd
          simp [hd] at h
        · rw [isDir_iff, List.reverse_cons, List.prefix_concat_iff]
          have e1 := (isDir_iff fs1 m)
          constructor
          · rintro (h1 | h1)
            · have : fs1.isDir m = true := e1.2 (Or.inl h1)
              rcases ih2.1 this with h2 | ⟨h2, h3⟩
              · exact Or.inl h2
              · exact Or.inr ⟨h2, Or.inr h3⟩
            · rcases List.mem_cons.1 h1 with h1 | h1
              · right
                subst h1
                simp
              · have : fs1.isDir m = true := e1.2 (Or.inr h1)
                rcases ih2.1 this with h2 | ⟨h2, h3⟩
                · exact Or.inl h2
                · exact Or.inr ⟨h2, Or.inr h3⟩
          · rintro (h1 | ⟨h2, h3 | h3⟩)
            · rcases e1.1 (ih2.2 (Or.inl h1)) with h4 | h4
              · exact Or.inl h4
              · exact Or.inr (List.mem_cons_of_mem _ h4)
            · right
              obtain ⟨mr, mc⟩ := m
              simp only at h2 h3
              subst h2 h3
              simp
            · rcases e1.1 (ih2.2 (Or.inr ⟨h2, h3⟩)) with h4 | h4
              · exact Or.inl h4
              · exact Or.inr (List.mem_cons_of_mem _ h4)

theorem MkdirAll_mono (fs : FS) (path : String) (n : Node) (h : fs.isDir n = true) :
    (MkdirAll fs path).1.isDir n = true :=
  mkdirAllRev_mono fs _ _ n h

theorem MkdirAll_made (fs : FS) (path : String) (h : (MkdirAll fs path).2 = none) :
    (MkdirAll fs path).1.isDir (lexResolve path) = true := by
  have := mkdirAllRev_made fs (lexResolve path).rooted (lexResolve path).comps.reverse h
  rwa [List.reverse_reverse] at this

theorem MkdirAll_existing (fs : FS) (path : String) (h : fs.isDir (lexResolve path) = true) :
    MkdirAll fs path = (fs, none) := by
  apply mkdirAllRev_existing
  rwa [List.reverse_reverse]

theorem MkdirAll_deny (fs : FS) (path : String) : (MkdirAll fs path).1.deny = fs.deny :=
  mkdirAllRev_deny fs _ _

theorem MkdirAll_allowed (fs : FS) (path : String) (h : ∀ n, fs.deny n = none) :
    (MkdirAll fs path).2 = none :=
  mkdirAllRev_allowed fs _ _ h

theorem MkdirAll_closed (fs : FS) (path : String) (hc : fs.Closed) : (MkdirAll fs path).1.Closed :=
  mkdirAllRev_closed fs _ _ hc

theorem MkdirAll_dirs (fs : FS) (path : String) (hc : fs.Closed)
    (h : (MkdirAll fs path).2 = none) (m : Node) :
    (MkdirAll fs path).1.isDir m = true ↔
      fs.isDir m = true ∨
        (m.rooted = (lexResolve path).rooted ∧ m.comps <+: (lexResolve path).comps) := by
  have := mkdirAllRev_dirs fs (lexResolve path).rooted (lexResolve path).comps.reverse hc h m
  rwa [List.reverse_reverse] at this

/-! ## Runs of `os.MkdirAll` calls -/

theorem mkdirSeq_cons_ok (fs fs1 : FS) (p : String) (ps : List String)
    (h : MkdirAll fs p = (fs1, none)) : mkdirSeq fs (p :: ps) = mkdirSeq fs1 ps := by
  simp only [mkdirSeq, h]

theorem mkdirSeq_cons_err (fs fs1 : FS) (p e : String) (ps : List String)
    (h : MkdirAll fs p = (fs1, some e)) : mkdirSeq fs (p :: ps) = (fs1, false) := by
  simp only [mkdirSeq, h]

theorem mkdirSeq_append (fs : FS) (ps qs : List String) :
    mkdirSeq fs (ps ++ qs) =
      if (mkdirSeq fs ps).2 = true then mkdirSeq (mkdirSeq fs ps).1 qs
      else ((mkdirSeq fs ps).1, false) := by
  induction ps generalizing fs with
  | nil => simp [mkdirSeq]
  | cons p ps ih =>
    rcases hm : MkdirAll fs p with ⟨fs1, _ | e⟩
    · rw [List.cons_append, mkdirSeq_cons_ok fs fs1 p _ hm, mkdirSeq_cons_ok fs fs1 p _ hm, ih]
    · rw [List.cons_append, mkdirSeq_cons_err fs fs1 p e _ hm, mkdirSeq_cons_err fs fs1 p e _ hm]
      simp

theorem mkdirSeq_mono (fs : FS) (ps : List String) (n : Node) (h : fs.isDir n = true) :
    (mkdirSeq fs ps).1.isDir n = true := by
  induction ps generalizing fs with
  | nil => exact h
  | cons p ps ih =>
    have hmono := MkdirAll_mono fs p n h
    rcases hm : MkdirAll fs p with ⟨fs1, _ | e⟩
    · rw [mkdirSeq_cons_ok fs fs1 p _ hm]
      rw [hm] at hmono
      exact ih fs1 hmono
    · rw [mkdirSeq_cons_err fs fs1 p e _ hm]
      rw [hm] at hmono
      exact hmono

theorem mkdirSeq_made (fs : FS) (ps : List String) (h : (mkdirSeq fs ps).2 = true) :
    ∀ p ∈ ps, (mkdirSeq fs ps).1.isDir (lexResolve p) = true := by
  induction ps generalizing fs with
  | nil => simp
  | cons p ps ih =>
    have hmade := MkdirAll_made fs p
    rcases hm : MkdirAll fs p with ⟨fs1, _ | e⟩
    · rw [mkdirSeq_cons_ok fs fs1 p _ hm] at h ⊢
      rw [hm] at hmade
      intro q hq
      rcases List.mem_cons.1 hq with hq | hq
      · subst hq
        exact mkdirSeq_mono fs1 ps _ (hmade rfl)
      · exact ih fs1 h q hq
    · rw [mkdirSeq_cons_err fs fs1 p e _ hm] at h
      simp at h

theorem mkdirSeq_existing (fs : FS) (ps : List String)
    (h : ∀ p ∈ ps, fs.isDir (lexResolve p) = true) : mkdirSeq fs ps = (fs, true) := by
  induction ps with
  | nil => rfl
  | cons p ps ih =>
    rw [mkdirSeq_cons_ok fs fs p ps (MkdirAll_existing fs p (h p (List.mem_cons_self _ _)))]
    exact ih (fun q hq => h q (List.mem_cons_of_mem _ hq))

theorem mkdirSeq_allowed (fs : FS) (ps : List String) (h : ∀ n, fs.deny n = none) :
    (mkdirSeq fs ps).2 = true := by
  induction ps generalizing fs with
  | nil => rfl
  | cons p ps ih =>
    have hok := MkdirAll_allowed fs p h
    have hdeny := MkdirAll_deny fs p
    rcases hm : MkdirAll fs p with ⟨fs1, _ | e⟩
    · rw [mkdirSeq_cons_ok fs fs1 p _ hm]
      rw [hm] at hdeny
      exact ih fs1 (fun n => by rw [hdeny]; exact h n)
    · rw [hm] at hok
      simp at hok

theorem mkdirSeq_closed (fs : FS) (ps : List String) (hc : fs.Closed) :
    (mkdirSeq fs ps).1.Closed := by
  induction ps generalizing fs with
  | nil => exact hc
  | cons p ps ih =>
    have hcl := MkdirAll_closed fs p hc
    rcases hm : MkdirAll fs p with ⟨fs1, _ | e⟩
    · rw [mkdirSeq_cons_ok fs fs1 p _ hm]
      rw [hm] at hcl
      exact ih fs1 hcl
    · rw [mkdirSeq_cons_err fs fs1 p e _ hm]
      rw [hm] at hcl
      exact hcl

/-- On a file system in which parents exist, a run of successful `MkdirAll` calls adds
exactly the directories named and their ancestors. -/
theorem mkdirSeq_dirs (fs : FS) (ps : List String) (hc : fs.Closed)
    (h : (mkdirSeq fs ps).2 = true) (m : Node) :
    (mkdirSeq fs ps).1.isDir m = true ↔
      fs.isDir m = true ∨
        ∃ p ∈ ps, m.rooted = (lexResolve p).rooted ∧ m.comps <+: (lexResolve p).comps := by
  induction ps generalizing fs with
  | nil => simp [mkdirSeq]
  | cons p ps ih =>
    have hcl := MkdirAll_closed fs p hc
    have hd := MkdirAll_dirs fs p hc
    rcases hm : MkdirAll fs p with ⟨fs1, _ | e⟩
    · rw [mkdirSeq_cons_ok fs fs1 p _ hm] at h ⊢
      rw [hm] at hcl hd
      rw [ih fs1 hcl h, hd rfl m]
      simp only [List.mem_cons, exists_eq_or_imp]
      tauto
    · rw [mkdirSeq_cons_err fs fs1 p e _ hm] at h
      simp at h

/-! ## `createDirectoryStructure` as a run of `os.MkdirAll` calls -/

theorem createDirectoryStructure_entry (fs : FS) (basePath dirName customerName : String)
    (subDirs rest : DirTree) :
    createDirectoryStructure fs basePath (.entry dirName subDirs rest) customerName =
      match MkdirAll fs (if dirName = "01_Customers" ∧ customerName ≠ "" then
          filepathJoin (filepathJoin basePath dirName) customerName
        else filepathJoin basePath dirName) with
      | (fs1, some e) =>
        (fs1, some (if dirName = "01_Customers" ∧ customerName ≠ "" then
            "failed to create customer directory: " ++ e
          else "failed to create directory " ++ filepathJoin basePath dirName ++ ": " ++ e))
      | (fs1, none) =>
        match createDirectoryStructure fs1 (filepathJoin basePath dirName) subDirs "" with
        | (fs2, some e) => (fs2, some e)
        | (fs2, none) => createDirectoryStructure fs2 basePath rest customerName := by
  have hnil : ∀ (fs1 : FS) (p : String), createDirectoryStructure fs1 p .nil "" = (fs1, none) := by
    intro fs1 p
    rw [createDirectoryStructure]
  rw [createDirectoryStructure]
  by_cases hcond : dirName = "01_Customers" ∧ customerName ≠ ""
  · simp only [if_pos hcond]
    rcases hm : MkdirAll fs (filepathJoin (filepathJoin basePath dirName) customerName) with ⟨fs1, _ | e⟩
    · dsimp only
      by_cases hs : subDirs = .nil
      · subst hs
        rw [hnil]
        simp
      · rw [if_pos hs]
    · dsimp only
  · simp only [if_neg hcond]
    rcases hm : MkdirAll fs (filepathJoin basePath dirName) with ⟨fs1, _ | e⟩
    · dsimp only
      by_cases hs : subDirs = .nil
      · subst hs
        rw [hnil]
        simp
      · rw [if_pos hs]
    · dsimp only

theorem createDirectoryStructure_eq_mkdirSeq (layout : DirTree) :
    ∀ (fs : FS) (basePath customerName : String),
      (createDirectoryStructure fs basePath layout customerName).1 =
          (mkdirSeq fs (mkdirTargets basePath layout customerName)).1 ∧
        ((createDirectoryStructure fs basePath layout customerName).2 = none ↔
          (mkdirSeq fs (mkdirTargets basePath layout customerName)).2 = true) := by
  induction layout with
  | nil => intro fs basePath customerName; simp [createDirectoryStructure, mkdirTargets, mkdirSeq]
  | entry dirName subDirs rest ihs ihr =>
    intro fs basePath customerName
    rw [createDirectoryStructure_entry, mkdirTargets]
    rcases hm : MkdirAll fs (if dirName = "01_Customers" ∧ customerName ≠ "" then
          filepathJoin (filepathJoin basePath dirName) customerName
        else filepathJoin basePath dirName) with ⟨fs1, _ | e⟩
    · simp only []
      rw [mkdirSeq_cons_ok fs fs1 _ _ hm, mkdirSeq_append]
      obtain ⟨h1, h2⟩ := ihs fs1 (filepathJoin basePath dirName) ""
      rcases hs : createDirectoryStructure fs1 (filepathJoin basePath dirName) subDirs "" with ⟨fs2, _ | e⟩
      · rw [hs] at h1 h2
        have h3 : (mkdirSeq fs1 (mkdirTargets (filepathJoin basePath dirName) subDirs "")).2 = true :=
          h2.1 rfl
        simp only [] at h1 ⊢
        rw [if_pos h3, ← h1]
        exact ihr fs2 basePath customerName
      · rw [hs] at h1 h2
        have h3 : ¬ (mkdirSeq fs1 (mkdirTargets (filepathJoin basePath dirName) subDirs "")).2 = true := by
          intro k
          have := h2.2 k
          simp at this
        simp only [] at h1 ⊢
        rw [if_neg h3, ← h1]
        simp
    · simp only []
      rw [mkdirSeq_cons_err fs fs1 _ e _ hm]
      simp

theorem sameMap_targets (a b : DirTree) (h : SameMap a b) :
    ∀ (basePath customerName : String),
      (mkdirTargets basePath a customerName).Perm (mkdirTargets basePath b customerName) := by
  induction h with
  | nil => intro _ _; exact List.Perm.refl _
  | entry dirName _ _ ihs ihr =>
    intro basePath customerName
    simp only [mkdirTargets]
    exact List.Perm.cons _ (List.Perm.append (ihs _ _) (ihr _ _))
  | swap d1 d2 s1 s2 r =>
    intro basePath customerName
    simp only [mkdirTargets]
    generalize (if d1 = "01_Customers" ∧ customerName ≠ "" then
      filepathJoin (filepathJoin basePath d1) customerName else filepathJoin basePath d1) = x
    generalize (if d2 = "01_Customers" ∧ customerName ≠ "" then
      filepathJoin (filepathJoin basePath d2) customerName else filepathJoin basePath d2) = y
    generalize mkdirTargets (filepathJoin basePath d1) s1 "" = l1
    generalize mkdirTargets (filepathJoin basePath d2) s2 "" = l2
    generalize mkdirTargets basePath r customerName = l3
    have e1 : x :: (l1 ++ y :: (l2 ++ l3)) = (x :: l1) ++ ((y :: l2) ++ l3) := by simp
    have e2 : y :: (l2 ++ x :: (l1 ++ l3)) = (y :: l2) ++ ((x :: l1) ++ l3) := by simp
    rw [e1, e2, ← List.append_assoc, ← List.append_assoc]
    exact List.Perm.append_right _ List.perm_append_comm
  | trans _ _ ih1 ih2 =>
    intro basePath customerName
    exact (ih1 _ _).trans (ih2 _ _)

theorem sameMap_refl (a : DirTree) : SameMap a a := by
  induction a with
  | nil => exact SameMap.nil
  | entry d s r ihs ihr => exact SameMap.entry d ihs ihr

/-! ## The scaffolder -/

theorem staticNames_elements :
    ∀ n ∈ ["00_Inbox", "calls", "internal", "external", "emails", "notes", "01_Customers",
      "10_PromptTemplates", "20_Demo_Library", "30_CommunicationTemplates", "99_Assets",
      "Project_Overview", "Communications", "POC_Documents"], IsPathElement n := by
  decide

theorem targets_resolved (basePath customerName : String) (hcust : IsPathElement customerName) :
    (mkdirTargets basePath DirectoryStructure customerName).map lexResolve =
      (targetSuffixes customerName).map fun q =>
        (⟨(lexResolve basePath).rooted, (lexResolve basePath).comps ++ q⟩ : Node) := by
  have hne : customerName ≠ "" := hcust.1
  have e := fun (a n : String) (h : n ∈ ["00_Inbox", "calls", "internal", "external", "emails",
      "notes", "01_Customers", "10_PromptTemplates", "20_Demo_Library", "30_CommunicationTemplates",
      "99_Assets", "Project_Overview", "Communications", "POC_Documents"]) =>
    lexResolve_join_element a n (staticNames_elements n h)
  simp only [mkdirTargets, DirectoryStructure, targetSuffixes, List.map_cons, List.map_nil,
    List.cons_append, List.nil_append, List.append_nil]
  simp [hne, e, lexResolve_join_element _ _ hcust, List.append_assoc]

theorem prefix_append_cases (l base q : List String) :
    l <+: base ++ q ↔ l <+: base ∨ ∃ q2, q2 ≠ [] ∧ q2 <+: q ∧ l = base ++ q2 := by
  constructor
  · intro h
    rcases List.prefix_or_prefix_of_prefix h (List.prefix_append base q) with h1 | h1
    · exact Or.inl h1
    · obtain ⟨q2, rfl⟩ := h1
      by_cases hq : q2 = []
      · left; subst hq; simp
      · exact Or.inr ⟨q2, hq, (List.prefix_append_right_inj base).1 h, rfl⟩
  · rintro (h | ⟨q2, _, h2, rfl⟩)
    · exact h.trans (List.prefix_append base q)
    · exact (List.prefix_append_right_inj base).2 h2

theorem prefix_one (l : List String) (a : String) (h : l <+: [a]) (hne : l ≠ []) : l = [a] := by
  cases l with
  | nil => exact absurd rfl hne
  | cons x xs =>
    obtain ⟨h1, h2⟩ := List.cons_prefix_cons.1 h
    rw [h1, List.prefix_nil.1 h2]

theorem prefix_two (l : List String) (a b : String) (h : l <+: [a, b]) (hne : l ≠ []) :
    l = [a] ∨ l = [a, b] := by
  cases l with
  | nil => exact absurd rfl hne
  | cons x xs =>
    obtain ⟨h1, h2⟩ := List.cons_prefix_cons.1 h
    subst h1
    by_cases hx : xs = []
    · left; rw [hx]
    · right; rw [prefix_one xs b h2 hx]

theorem prefix_three (l : List String) (a b c : String) (h : l <+: [a, b, c]) (hne : l ≠ []) :
    l = [a] ∨ l = [a, b] ∨ l = [a, b, c] := by
  cases l with
  | nil => exact absurd rfl hne
  | cons x xs =>
    obtain ⟨h1, h2⟩ := List.cons_prefix_cons.1 h
    subst h1
    by_cases hx : xs = []
    · left; rw [hx]
    · right
      rcases prefix_two xs b c h2 hx with h3 | h3
      · left; rw [h3]
      · right; rw [h3]

/-- The non-empty prefixes of the paths asked for are the nodes of the static tree and
the customer directory. -/
theorem targetSuffixes_prefixes (customerName : String) (q2 : List String) :
    (∃ q ∈ targetSuffixes customerName, q2 ≠ [] ∧ q2 <+: q) ↔
      q2 ∈ staticNodes ∨ q2 = ["01_Customers", customerName] := by
  constructor
  · rintro ⟨q, hq, hne, hp⟩
    simp only [targetSuffixes, List.mem_cons, List.mem_singleton, List.not_mem_nil, or_false] at hq
    rcases hq with rfl | rfl | rfl | rfl | rfl | rfl | rfl | rfl | rfl | rfl | rfl | rfl | rfl | rfl
    · rw [prefix_one _ _ hp hne]; left; decide
    · rcases prefix_two _ _ _ hp hne with h | h <;> rw [h] <;> left <;> decide
    · rcases prefix_three _ _ _ _ hp hne with h | h | h <;> rw [h] <;> left <;> decide
    · rcases prefix_three _ _ _ _ hp hne with h | h | h <;> rw [h] <;> left <;> decide
    · rcases prefix_two _ _ _ hp hne with h | h <;> rw [h] <;> left <;> decide
    · rcases prefix_two _ _ _ hp hne with h | h <;> rw [h] <;> left <;> decide
    · rcases prefix_two _ _ _ hp hne with h | h
      · rw [h]; left; decide
      · right; exact h
    · rw [prefix_one _ _ hp hne]; left; decide
    · rw [prefix_one _ _ hp hne]; left; decide
    · rw [prefix_one _ _ hp hne]; left; decide
    · rw [prefix_one _ _ hp hne]; left; decide
    · rcases prefix_two _ _ _ hp hne with h | h <;> rw [h] <;> left <;> decide
    · rcases prefix_two _ _ _ hp hne with h | h <;> rw [h] <;> left <;> decide
    · rcases prefix_two _ _ _ hp hne with h | h <;> rw [h] <;> left <;> decide
  · rintro (h | h)
    · by_cases h01 : q2 = ["01_Customers"]
      · subst h01
        exact ⟨["01_Customers", customerName], by simp [targetSuffixes], by simp,
          ⟨[customerName], rfl⟩⟩
      · refine ⟨q2, ?_, ?_, List.prefix_refl _⟩
        · simp only [staticNodes, List.mem_cons, List.mem_singleton, List.not_mem_nil, or_false] at h
          simp only [targetSuffixes, List.mem_cons, List.mem_singleton, List.not_mem_nil, or_false]
          tauto
        · intro k
          subst k
          revert h
          decide
    · subst h
      exact ⟨_, by simp [targetSuffixes], by simp, List.prefix_refl _⟩

theorem createDirectoryStructure_ok_iff (fs : FS) (basePath customerName : String)
    (layout : DirTree) :
    (createDirectoryStructure fs basePath layout customerName).2 = none ↔
      (mkdirSeq fs (mkdirTargets basePath layout customerName)).2 = true :=
  (createDirectoryStructure_eq_mkdirSeq layout fs basePath customerName).2

theorem createDirectoryStructure_fs (fs : FS) (basePath customerName : String)
    (layout : DirTree) :
    (createDirectoryStructure fs basePath layout customerName).1 =
      (mkdirSeq fs (mkdirTargets basePath layout customerName)).1 :=
  (createDirectoryStructure_eq_mkdirSeq layout fs basePath customerName).1

/-- Where nothing is denied, `CreateStructure` returns no error. -/
theorem CreateStructure_allowed (fs : FS) (layout : DirTree) (basePath customerName : String)
    (h : ∀ n, fs.deny n = none) : (CreateStructure fs layout basePath customerName).2 = none := by
  unfold CreateStructure
  rw [createDirectoryStructure_ok_iff]
  exact mkdirSeq_allowed fs _ h

/-- C8 (as amended): for every project root and every customer name that is a single
path element, in every iteration order of the map and from every file system in which
parents exist: `CreateStructure` succeeds when nothing is denied, and when it succeeds the
directories that exist afterwards are those that existed before, the root and its
ancestors, one directory for each node of the static tree at its own path below the
root, and the one directory `01_Customers/<customer>` below the root. -/
theorem CreateStructure_customer_level (fs : FS) (layout : DirTree)
    (basePath customerName : String) (hcust : IsPathElement customerName)
    (hlayout : SameMap DirectoryStructure layout) (hclosed : fs.Closed) :
    ((∀ n, fs.deny n = none) → (CreateStructure fs layout basePath customerName).2 = none) ∧
    ((CreateStructure fs layout basePath customerName).2 = none →
      ∀ m : Node, (CreateStructure fs layout basePath customerName).1.isDir m = true ↔
        fs.isDir m = true ∨
        (m.rooted = (lexResolve basePath).rooted ∧ m.comps <+: (lexResolve basePath).comps) ∨
        (∃ q ∈ staticNodes,
          m = ⟨(lexResolve basePath).rooted, (lexResolve basePath).comps ++ q⟩) ∨
        m = ⟨(lexResolve basePath).rooted,
          (lexResolve basePath).comps ++ ["01_Customers", customerName]⟩) := by
  refine ⟨CreateStructure_allowed fs layout basePath customerName, ?_⟩
  intro hok m
  unfold CreateStructure at hok ⊢
  rw [createDirectoryStructure_ok_iff] at hok
  rw [createDirectoryStructure_fs, mkdirSeq_dirs fs _ hclosed hok m]
  have hperm := sameMap_targets _ _ hlayout basePath customerName
  have hres := targets_resolved basePath customerName hcust
  have hmem : ∀ n : Node, (∃ p ∈ mkdirTargets basePath layout customerName, lexResolve p = n) ↔
      ∃ q ∈ targetSuffixes customerName,
        n = ⟨(lexResolve basePath).rooted, (lexResolve basePath).comps ++ q⟩ := by
    intro n
    have h1 : (∃ p ∈ mkdirTargets basePath layout customerName, lexResolve p = n) ↔
        n ∈ (mkdirTargets basePath DirectoryStructure customerName).map lexResolve := by
      rw [List.mem_map]
      constructor
      · rintro ⟨p, hp, rfl⟩
        exact ⟨p, hperm.mem_iff.2 hp, rfl⟩
      · rintro ⟨p, hp, rfl⟩
        exact ⟨p, hperm.mem_iff.1 hp, rfl⟩
    rw [h1, hres, List.mem_map]
    constructor
    · rintro ⟨q, hq, rfl⟩; exact ⟨q, hq, rfl⟩
    · rintro ⟨q, hq, rfl⟩; exact ⟨q, hq, rfl⟩
  obtain ⟨mr, mc⟩ := m
  constructor
  · rintro (h | ⟨p, hp, hr, hpre⟩)
    · exact Or.inl h
    · obtain ⟨q, hq, hn⟩ := (hmem (lexResolve p)).1 ⟨p, hp, rfl⟩
      rw [hn] at hr hpre
      simp only at hr hpre
      subst hr
      rcases (prefix_append_cases mc _ q).1 hpre with h1 | ⟨q2, hne, hq2, rfl⟩
      · exact Or.inr (Or.inl ⟨rfl, h1⟩)
      · rcases (targetSuffixes_prefixes customerName q2).1 ⟨q, hq, hne, hq2⟩ with h2 | h2
        · exact Or.inr (Or.inr (Or.inl ⟨q2, h2, rfl⟩))
        · subst h2
          exact Or.inr (Or.inr (Or.inr rfl))
  · have hfirst : ["00_Inbox"] ∈ targetSuffixes customerName := by simp [targetSuffixes]
    have hfrom : ∀ q2 : List String, (∃ q ∈ targetSuffixes customerName, q2 ≠ [] ∧ q2 <+: q) →
        ∃ p ∈ mkdirTargets basePath layout customerName,
          (lexResolve basePath).rooted = (lexResolve p).rooted ∧
            (lexResolve basePath).comps ++ q2 <+: (lexResolve p).comps := by
      rintro q2 ⟨q, hq, _, hpre⟩
      obtain ⟨p, hp, hn⟩ := (hmem _).2 ⟨q, hq, rfl⟩
      refine ⟨p, hp, ?_, ?_⟩
      · rw [hn]
      · rw [hn]
        exact (List.prefix_append_right_inj _).2 hpre
    rintro (h | ⟨hr, hpre⟩ | ⟨q2, hq2, hm⟩ | hm)
    · exact Or.inl h
    · right
      obtain ⟨p, hp, hn⟩ := (hmem _).2 ⟨["00_Inbox"], hfirst, rfl⟩
      refine ⟨p, hp, ?_, ?_⟩
      · rw [hn]; exact hr
      · rw [hn]; exact hpre.trans (List.prefix_append _ _)
    · right
      obtain ⟨h1, h2⟩ := Node.mk.inj hm
      subst h1 h2
      exact hfrom q2 ((targetSuffixes_prefixes customerName q2).2 (Or.inl hq2))
    · right
      obtain ⟨h1, h2⟩ := Node.mk.inj hm
      subst h1 h2
      exact hfrom _ ((targetSuffixes_prefixes customerName _).2 (Or.inr rfl))

/-- C9: for every project root, customer name and file system, and for any two iteration
orders of the map: the first run succeeds when nothing is denied, and after a first run
that succeeded the second run returns no error and leaves the file system, hence the set
of directories, as the first run left it. -/
theorem CreateStructure_twice (fs : FS) (first second : DirTree) (basePath customerName : String)
    (hfirst : SameMap DirectoryStructure first) (hsecond : SameMap DirectoryStructure second) :
    ((∀ n, fs.deny n = none) → (CreateStructure fs first basePath customerName).2 = none) ∧
    ((CreateStructure fs first basePath customerName).2 = none →
      CreateStructure (CreateStructure fs first basePath customerName).1 second basePath customerName =
        ((CreateStructure fs first basePath customerName).1, none)) := by
  refine ⟨CreateStructure_allowed fs first basePath customerName, ?_⟩
  intro hok
  unfold CreateStructure at hok ⊢
  rw [createDirectoryStructure_ok_iff] at hok
  rw [createDirectoryStructure_fs]
  have hperm : (mkdirTargets basePath second customerName).Perm
      (mkdirTargets basePath first customerName) :=
    (sameMap_targets _ _ hsecond basePath customerName).symm.trans
      (sameMap_targets _ _ hfirst basePath customerName)
  have hall : ∀ p ∈ mkdirTargets basePath second customerName,
      (mkdirSeq fs (mkdirTargets basePath first customerName)).1.isDir (lexResolve p) = true :=
    fun p hp => mkdirSeq_made fs _ hok p (hperm.mem_iff.1 hp)
  have hseq := mkdirSeq_existing _ _ hall
  apply Prod.ext
  · rw [createDirectoryStructure_fs, hseq]
  · rw [createDirectoryStructure_ok_iff, hseq]

theorem emptyFS_closed : emptyFS.Closed := by
  intro rooted parent name h
  rw [isDir_iff] at h ⊢
  rcases h with h | h
  · exact Or.inl (fun c hc => h c (List.mem_append_left _ hc))
  · simp [emptyFS] at h

theorem CreateStructure_customer_level_witness :
    (CreateStructure emptyFS swappedStructure "acme-poc" "Acme Corp").2 = none ∧
    (CreateStructure emptyFS swappedStructure "acme-poc" "Acme Corp").1.isDir
      ⟨false, ["acme-poc", "01_Customers", "Acme Corp"]⟩ = true ∧
    (CreateStructure emptyFS swappedStructure "acme-poc" "Acme Corp").1.isDir
      ⟨false, ["acme-poc", "10_PromptTemplates"]⟩ = true :=
  have t := CreateStructure_customer_level emptyFS swappedStructure "acme-poc" "Acme Corp"
    (by decide) (SameMap.swap _ _ _ _ _) emptyFS_closed
  ⟨t.1 (fun _ => rfl),
    (t.2 (t.1 (fun _ => rfl)) _).2 (Or.inr (Or.inr (Or.inr (by decide)))),
    (t.2 (t.1 (fun _ => rfl)) _).2
      (Or.inr (Or.inr (Or.inl ⟨["10_PromptTemplates"], by decide, by decide⟩)))⟩

/-- C8 as stated fails for the non-empty customer name `A/B`: from the empty file system
the run succeeds and creates the two levels `01_Customers/A` and `01_Customers/A/B`, and
no directory named `A/B`; the directories afterwards are not those the claim lists. -/
theorem CreateStructure_customer_level_fails_on_separator :
    ("A/B" : String) ≠ "" ∧
    (CreateStructure emptyFS DirectoryStructure "acme-poc" "A/B").2 = none ∧
    (CreateStructure emptyFS DirectoryStructure "acme-poc" "A/B").1.isDir
      ⟨false, ["acme-poc", "01_Customers", "A"]⟩ = true ∧
    (CreateStructure emptyFS DirectoryStructure "acme-poc" "A/B").1.isDir
      ⟨false, ["acme-poc", "01_Customers", "A", "B"]⟩ = true ∧
    (CreateStructure emptyFS DirectoryStructure "acme-poc" "A/B").1.isDir
      ⟨false, ["acme-poc", "01_Customers", "A/B"]⟩ = false ∧
    ¬ (∀ m : Node, (CreateStructure emptyFS DirectoryStructure "acme-poc" "A/B").1.isDir m = true ↔
        emptyFS.isDir m = true ∨
        (m.rooted = (lexResolve "acme-poc").rooted ∧ m.comps <+: (lexResolve "acme-poc").comps) ∨
        (∃ q ∈ staticNodes,
          m = ⟨(lexResolve "acme-poc").rooted, (lexResolve "acme-poc").comps ++ q⟩) ∨
        m = ⟨(lexResolve "acme-poc").rooted,
          (lexResolve "acme-poc").comps ++ ["01_Customers", "A/B"]⟩) := by
  refine ⟨by decide, by decide, by decide, by decide, by decide, ?_⟩
  intro h
  have h1 := (h ⟨false, ["acme-poc", "01_Customers", "A"]⟩).1 (by decide)
  revert h1
  decide

theorem CreateStructure_twice_witness :
    (CreateStructure emptyFS DirectoryStructure "acme-poc" "Acme Corp").2 = none ∧
    CreateStructure (CreateStructure emptyFS DirectoryStructure "acme-poc" "Acme Corp").1
        swappedStructure "acme-poc" "Acme Corp" =
      ((CreateStructure emptyFS DirectoryStructure "acme-poc" "Acme Corp").1, none) :=
  have t := CreateStructure_twice emptyFS DirectoryStructure swappedStructure "acme-poc" "Acme Corp"
    (sameMap_refl _) (SameMap.swap _ _ _ _ _)
  ⟨t.1 (fun _ => rfl), t.2 (t.1 (fun _ => rfl))⟩

/-! ## Fetching the prompt templates -/

theorem savePrompts_spec (w : FetchWorld) (promptsPath : String) (files : List GitHubFile) :
    ∀ start : Nat,
      (savePrompts w promptsPath start files).writes =
          ((((files.enumFrom start).filter fun p => isPromptEntry p.2).takeWhile
            fun p => (entrySaved w promptsPath p).isSome).filterMap (entrySaved w promptsPath)) ∧
        match ((files.enumFrom start).filter fun p => isPromptEntry p.2).find?
            fun p => (entrySaved w promptsPath p).isNone with
        | none => (savePrompts w promptsPath start files).err = none
        | some p => ∃ e, (savePrompts w promptsPath start files).err =
              some ("failed to download " ++ p.2.Name ++ ": " ++ e) ∨
            (savePrompts w promptsPath start files).err =
              some ("failed to save " ++ p.2.Name ++ ": " ++ e) := by
  induction files with
  | nil => intro start; simp [savePrompts]
  | cons file rest ih =>
    intro start
    by_cases hsel : file.Type_ = "file" ∧ stringsHasSuffix file.Name ".md" = true
    · have hentry : isPromptEntry file = true := by simp [isPromptEntry, hsel.1, hsel.2]
      simp only [List.enumFrom_cons, List.filter_cons, hentry, if_true]
      cases hd : downloadFile (w.get start) file.DownloadURL with
      | error e =>
        have hnone : entrySaved w promptsPath (start, file) = none := by simp [entrySaved, hd]
        simp only [savePrompts, hsel, and_self, if_true, hd, List.takeWhile_cons, hnone,
          Option.isSome_none, Bool.false_eq_true, if_false, List.filterMap_nil,
          List.find?_cons, Option.isNone_none, true_and]
        exact ⟨e, Or.inl rfl⟩
      | ok content =>
        cases hw : w.writeFile start (filepathJoin promptsPath file.Name) content with
        | some e =>
          have hnone : entrySaved w promptsPath (start, file) = none := by
            simp [entrySaved, hd, hw]
          simp only [savePrompts, hsel, and_self, if_true, hd, hw, List.takeWhile_cons, hnone,
            Option.isSome_none, Bool.false_eq_true, if_false, List.filterMap_nil,
            List.find?_cons, Option.isNone_none, true_and]
          exact ⟨e, Or.inr rfl⟩
        | none =>
          have hsome : entrySaved w promptsPath (start, file) =
              some (filepathJoin promptsPath file.Name, content) := by
            simp [entrySaved, hd, hw]
          obtain ⟨ih1, ih2⟩ := ih (start + 1)
          simp only [savePrompts, hsel, and_self, if_true, hd, hw, List.takeWhile_cons, hsome,
            Option.isSome_some, List.filterMap_cons, List.find?_cons, Option.isNone_some,
            Bool.false_eq_true, if_false, ih1, true_and]
          exact ih2
    · have hentry : isPromptEntry file = false := by
        simp only [isPromptEntry, Bool.and_eq_false_imp, decide_eq_true_eq]
        intro h1
        cases hs : stringsHasSuffix file.Name ".md" with
        | false => rfl
        | true => exact absurd ⟨h1, hs⟩ hsel
      simp only [List.enumFrom_cons, List.filter_cons, hentry, Bool.false_eq_true, if_false,
        savePrompts, hsel]
      exact ih (start + 1)

/-- C10 (as amended): when the listing answers 200 and decodes, `FetchAndSavePrompts`
writes, in listing order, the entries of type "file" with a name ending in ".md" that
come before the first such entry whose download or write fails, each with the downloaded
content at the path `filepath.Join` makes of `10_PromptTemplates` under the project and
the entry name; it returns no error when no such entry fails, and otherwise an error
naming the first failing entry, after which nothing is written. For a name that is a
single path element that path is the file of this name directly under
`10_PromptTemplates`. -/
theorem FetchAndSavePrompts_spec (w : FetchWorld) (projectPath body : String)
    (files : List GitHubFile) (h : w.listing = .response 200 body (.ok files)) :
    (FetchAndSavePrompts w projectPath).writes =
        ((((files.enumFrom 0).filter fun p => isPromptEntry p.2).takeWhile
          fun p => (entrySaved w (filepathJoin projectPath "10_PromptTemplates") p).isSome).filterMap
            (entrySaved w (filepathJoin projectPath "10_PromptTemplates"))) ∧
      (match ((files.enumFrom 0).filter fun p => isPromptEntry p.2).find?
          fun p => (entrySaved w (filepathJoin projectPath "10_PromptTemplates") p).isNone with
      | none => (FetchAndSavePrompts w projectPath).err = none
      | some p => ∃ e, (FetchAndSavePrompts w projectPath).err =
            some ("failed to download " ++ p.2.Name ++ ": " ++ e) ∨
          (FetchAndSavePrompts w projectPath).err =
            some ("failed to save " ++ p.2.Name ++ ": " ++ e)) ∧
      ∀ name : String, IsPathElement name →
        lexResolve (filepathJoin (filepathJoin projectPath "10_PromptTemplates") name) =
          ⟨(lexResolve projectPath).rooted,
            (lexResolve projectPath).comps ++ ["10_PromptTemplates", name]⟩ := by
  have hrun : FetchAndSavePrompts w projectPath =
      savePrompts w (filepathJoin projectPath "10_PromptTemplates") 0 files := by
    simp [FetchAndSavePrompts, h]
  rw [hrun]
  refine ⟨(savePrompts_spec w _ files 0).1, (savePrompts_spec w _ files 0).2, ?_⟩
  intro name hname
  rw [lexResolve_join_element _ _ hname, lexResolve_join_element _ _ (by decide)]
  simp

theorem FetchAndSavePrompts_spec_witness :
    (FetchAndSavePrompts sampleFetchWorld "acme-poc").writes =
        [("acme-poc/10_PromptTemplates/a.md", "# u/a")] ∧
      (∃ e, (FetchAndSavePrompts sampleFetchWorld "acme-poc").err =
            some ("failed to download " ++ "b.md" ++ ": " ++ e) ∨
          (FetchAndSavePrompts sampleFetchWorld "acme-poc").err =
            some ("failed to save " ++ "b.md" ++ ": " ++ e)) ∧
      lexResolve (filepathJoin (filepathJoin "acme-poc" "10_PromptTemplates") "a.md") =
        ⟨false, ["acme-poc", "10_PromptTemplates", "a.md"]⟩ :=
  have t := FetchAndSavePrompts_spec sampleFetchWorld "acme-poc" "" sampleListing rfl
  ⟨t.1, t.2.1, t.2.2 "a.md" (by decide)⟩

/-- C10 as stated fails for the listing whose only entry is the file `../evil.md`: it is
written, without error, at `acme-poc/evil.md`, which is not below
`acme-poc/10_PromptTemplates`. -/
theorem FetchAndSavePrompts_writes_outside :
    FetchAndSavePrompts traversalWorld "acme-poc" = ⟨[("acme-poc/evil.md", "# u/e")], none⟩ ∧
    lexResolve "acme-poc/evil.md" = ⟨false, ["acme-poc", "evil.md"]⟩ ∧
    lexResolve (filepathJoin "acme-poc" "10_PromptTemplates") =
      ⟨false, ["acme-poc", "10_PromptTemplates"]⟩ ∧
    ¬ ((lexResolve (filepathJoin "acme-poc" "10_PromptTemplates")).comps <+:
      (lexResolve "acme-poc/evil.md").comps) := by
  decide

/-! ## Fetching the communication templates -/

theorem saveTemplates_spec (w : FetchWorld) (templatesPath : String)
    (table : List (String × String)) :
    ∀ start : Nat,
      (saveTemplates w templatesPath start table).err = none ∧
        (saveTemplates w templatesPath start table).attempted = table.map Prod.fst ∧
        (saveTemplates w templatesPath start table).writes =
          (table.enumFrom start).filterMap (templateSaved w templatesPath) := by
  induction table with
  | nil => intro start; simp [saveTemplates]
  | cons template rest ih =>
    intro start
    obtain ⟨h1, h2, h3⟩ := ih (start + 1)
    cases hd : downloadFile (w.get start) template.1 with
    | error e =>
      have hnone : templateSaved w templatesPath (start, template) = none := by
        simp [templateSaved, hd]
      simp only [saveTemplates, hd, h1, h2, h3, List.map_cons, List.enumFrom_cons,
        List.filterMap_cons, hnone, and_self]
    | ok content =>
      cases hw : w.writeFile start (filepathJoin templatesPath template.2) content with
      | some e =>
        have hnone : templateSaved w templatesPath (start, template) = none := by
          simp [templateSaved, hd, hw]
        simp only [saveTemplates, hd, hw, h1, h2, h3, List.map_cons, List.enumFrom_cons,
          List.filterMap_cons, hnone, and_self]
      | none =>
        have hsome : templateSaved w templatesPath (start, template) =
            some (filepathJoin templatesPath template.2, content) := by
          simp [templateSaved, hd, hw]
        simp only [saveTemplates, hd, hw, h1, h2, h3, List.map_cons, List.enumFrom_cons,
          List.filterMap_cons, hsome, and_self]

/-! ## The init flow -/

theorem askProjectName_preliminary (w : InitWorld) :
    ∀ e ∈ (askProjectName w).1, e.isPreliminary = true := by
  unfold askProjectName
  split
  · split <;> simp [InitEvent.isPreliminary]
  · simp

theorem askCustomerName_preliminary (w : InitWorld) :
    ∀ e ∈ (askCustomerName w).1, e.isPreliminary = true := by
  unfold askCustomerName
  split
  · split <;> simp [InitEvent.isPreliminary]
  · simp

theorem clearTarget_preliminary (w : InitWorld) (projectName projectPath : String) :
    ∀ e ∈ (clearTarget w projectName projectPath).1, e.isPreliminary = true := by
  unfold clearTarget
  split
  · simp [InitEvent.isPreliminary]
  · dsimp only
    split
    · simp [InitEvent.isPreliminary]
    · split <;> simp [InitEvent.isPreliminary]

theorem not_mem_of_preliminary (t : List InitEvent) (e : InitEvent)
    (ht : ∀ x ∈ t, x.isPreliminary = true) (he : e.isPreliminary = false) : e ∉ t := by
  intro hm
  rw [ht e hm] at he
  exact absurd he (by simp)

theorem beforeRepository_after_templates (w : InitWorld) (p : String) :
    InitEvent.fetchCommunicationTemplates p ∈ (beforeRepository w).1 →
      ∃ n c, InitEvent.createProjectFiles p n c ∈ (beforeRepository w).1 := by
  have q1 := askProjectName_preliminary w
  have q2 := askCustomerName_preliminary w
  unfold beforeRepository
  rcases h1 : askProjectName w with ⟨t1, e | projectName⟩
  · rw [h1] at q1
    intro h
    exact absurd h (not_mem_of_preliminary t1 _ q1 rfl)
  · rw [h1] at q1
    rcases h2 : askCustomerName w with ⟨t2, e | customerName⟩
    · rw [h2] at q2
      dsimp only
      intro h
      rcases List.mem_append.1 h with h | h
      · exact absurd h (not_mem_of_preliminary t1 _ q1 rfl)
      · exact absurd h (not_mem_of_preliminary t2 _ q2 rfl)
    · rw [h2] at q2
      have q3 := clearTarget_preliminary w projectName (filepathJoin "." projectName)
      dsimp only
      rcases h3 : clearTarget w projectName (filepathJoin "." projectName) with ⟨t3, _ | r⟩
      · rw [h3] at q3
        have n1 := not_mem_of_preliminary t1 (.fetchCommunicationTemplates p) q1 rfl
        have n2 := not_mem_of_preliminary t2 (.fetchCommunicationTemplates p) q2 rfl
        have n3 := not_mem_of_preliminary t3 (.fetchCommunicationTemplates p) q3 rfl
        dsimp only
        split
        · simp [n1, n2, n3]
        · split
          · simp [n1, n2, n3]
          · split
            · simp only [List.mem_append, n1, n2, n3, false_or, List.mem_cons, List.mem_singleton,
                reduceCtorEq, List.not_mem_nil, or_false, InitEvent.fetchCommunicationTemplates.injEq]
              intro h
              have hp : p = filepathJoin "." projectName := by
                rcases h with h | h
                · exact h
                · split at h <;> simp at h
              refine ⟨projectName, customerName, ?_⟩
              simp [hp]
            · simp only [List.mem_append, n1, n2, n3, false_or, List.mem_cons, List.mem_singleton,
                reduceCtorEq, List.not_mem_nil, or_false, InitEvent.fetchCommunicationTemplates.injEq]
              intro h
              have hp : p = filepathJoin "." projectName := by
                rcases h with h | h
                · exact h
                · split at h <;> simp at h
              refine ⟨projectName, customerName, ?_⟩
              simp [hp]
      · rw [h3] at q3
        dsimp only
        intro h
        rcases List.mem_append.1 h with h | h
        · rcases List.mem_append.1 h with h | h
          · exact absurd h (not_mem_of_preliminary t1 _ q1 rfl)
          · exact absurd h (not_mem_of_preliminary t2 _ q2 rfl)
        · exact absurd h (not_mem_of_preliminary t3 _ q3 rfl)

theorem repositoryStep_no_templates (w : InitWorld) (projectName customerName projectPath p : String) :
    InitEvent.fetchCommunicationTemplates p ∉ repositoryStep w projectName customerName projectPath := by
  unfold repositoryStep
  dsimp only
  split
  · split <;> simp
  · split <;> simp [missingTokenNote, skipNotice]

theorem runInit_trace (w : InitWorld) :
    (∃ err, beforeRepository w = ((runInit w).trace, .returned err)) ∨
      ∃ pre projectName customerName projectPath,
        beforeRepository w = (pre, .created projectName customerName projectPath) ∧
          runInit w = ⟨pre ++ repositoryStep w projectName customerName projectPath ++
            summaryLines projectName customerName projectPath, none⟩ := by
  unfold runInit
  rcases h : beforeRepository w with ⟨t, err | ⟨pn, cn, pp⟩⟩
  · left; exact ⟨err, rfl⟩
  · right; exact ⟨t, pn, cn, pp, rfl, rfl⟩

/-- C11: for every project path and every outcome of the downloads and writes,
`FetchCommunicationTemplates` returns no error and tries the download of every template
of its table; the loop behind it does so for every table, writing exactly the items whose
download and write both succeed; and a run of `runInit` that reaches this step always goes
on to `CreateProjectFiles`. -/
theorem FetchCommunicationTemplates_tolerant (w : FetchWorld) (projectPath : String)
    (iw : InitWorld) :
    (FetchCommunicationTemplates w projectPath).err = none ∧
    (FetchCommunicationTemplates w projectPath).attempted = communicationTemplates.map Prod.fst ∧
    (∀ (templatesPath : String) (table : List (String × String)) (start : Nat),
      (saveTemplates w templatesPath start table).err = none ∧
        (saveTemplates w templatesPath start table).attempted = table.map Prod.fst ∧
        (saveTemplates w templatesPath start table).writes =
          (table.enumFrom start).filterMap (templateSaved w templatesPath)) ∧
    (∀ p : String, InitEvent.fetchCommunicationTemplates p ∈ (runInit iw).trace →
      ∃ n c, InitEvent.createProjectFiles p n c ∈ (runInit iw).trace) := by
  refine ⟨?_, ?_, fun templatesPath table start => saveTemplates_spec w templatesPath table start, ?_⟩
  · exact (saveTemplates_spec w _ communicationTemplates 0).1
  · exact (saveTemplates_spec w _ communicationTemplates 0).2.1
  · intro p hp
    have hb := beforeRepository_after_templates iw p
    rcases runInit_trace iw with ⟨err, h⟩ | ⟨pre, pn, cn, pp, h, hrun⟩
    · rw [h] at hb
      exact hb hp
    · rw [h] at hb
      rw [hrun] at hp ⊢
      simp only [List.mem_append] at hp ⊢
      rcases hp with (hp | hp) | hp
      · obtain ⟨n, c, hc⟩ := hb hp
        exact ⟨n, c, Or.inl (Or.inl hc)⟩
      · exact absurd hp (repositoryStep_no_templates iw pn cn pp p)
      · simp [summaryLines] at hp

theorem FetchCommunicationTemplates_tolerant_witness :
    (FetchCommunicationTemplates templateWorld "acme-poc").err = none ∧
    (saveTemplates templateWorld "t" 0 [("u/a", "a.html"), ("u/b", "b.html")]).attempted =
      ["u/a", "u/b"] ∧
    (saveTemplates templateWorld "t" 0 [("u/a", "a.html"), ("u/b", "b.html")]).writes =
      [("t/b.html", "<u/b")] ∧
    ∃ n c, InitEvent.createProjectFiles "acme-poc" n c ∈
      (runInit (sampleInitWorld true envNoToken)).trace :=
  have t := FetchCommunicationTemplates_tolerant templateWorld "acme-poc"
    (sampleInitWorld true envNoToken)
  ⟨t.1, (t.2.2.1 "t" [("u/a", "a.html"), ("u/b", "b.html")] 0).2.1,
    (t.2.2.1 "t" [("u/a", "a.html"), ("u/b", "b.html")] 0).2.2, t.2.2.2 "acme-poc" (by decide)⟩

theorem beforeRepository_no_repository (w : InitWorld) (a b c : String) (calls : List Event) :
    InitEvent.createRepository a b c calls ∉ (beforeRepository w).1 := by
  have q1 := askProjectName_preliminary w
  have q2 := askCustomerName_preliminary w
  unfold beforeRepository
  rcases h1 : askProjectName w with ⟨t1, e | projectName⟩
  · rw [h1] at q1
    exact not_mem_of_preliminary t1 _ q1 rfl
  · rw [h1] at q1
    have n1 := not_mem_of_preliminary t1 (.createRepository a b c calls) q1 rfl
    rcases h2 : askCustomerName w with ⟨t2, e | customerName⟩
    · rw [h2] at q2
      have n2 := not_mem_of_preliminary t2 (.createRepository a b c calls) q2 rfl
      simp [n1, n2]
    · rw [h2] at q2
      have n2 := not_mem_of_preliminary t2 (.createRepository a b c calls) q2 rfl
      have q3 := clearTarget_preliminary w projectName (filepathJoin "." projectName)
      dsimp only
      rcases h3 : clearTarget w projectName (filepathJoin "." projectName) with ⟨t3, _ | r⟩
      · rw [h3] at q3
        have n3 := not_mem_of_preliminary t3 (.createRepository a b c calls) q3 rfl
        dsimp only
        split
        · simp [n1, n2, n3]
        · split
          · simp [n1, n2, n3]
          · split
            · simp only [List.mem_append, n1, n2, n3, false_or, List.mem_cons, List.mem_singleton,
                reduceCtorEq, List.not_mem_nil, or_false, not_false_eq_true, not_or, true_and,
                and_true]
              split <;> simp
            · simp only [List.mem_append, n1, n2, n3, false_or, List.mem_cons, List.mem_singleton,
                reduceCtorEq, List.not_mem_nil, or_false, not_false_eq_true, not_or, true_and,
                and_true]
              split <;> simp
      · rw [h3] at q3
        have n3 := not_mem_of_preliminary t3 (.createRepository a b c calls) q3 rfl
        simp [n1, n2, n3]

theorem CreateRepository_first_call (env : Env) (projectPath projectName customerName : String)
    (htoken : env.GITHUB_PAT ≠ "") :
    (CreateRepository env projectPath projectName customerName).trace.head? =
      some (.post orgReposURL env.GITHUB_PAT (repoRequestBody (sanitizeRepoName projectName)
        ("Presales project for " ++ customerName))) := by
  simp only [CreateRepository, htoken, if_false]
  split
  · split
    · split <;> rfl
    · rfl
  · rfl

/-- C12: in a run of `runInit` that has created the project, for every value of the
opt-out flag and of the token: `CreateRepository` is called if and only if the flag is
unset and the token is not empty, and then the organization endpoint is posted to; when
the flag is set the step prints the skip notice and nothing else, whether or not there is
a token; when the flag is unset and the token empty it prints the note on the missing
token; and in every case, whatever `CreateRepository` returns, the summary follows and
`runInit` returns no error. -/
theorem runInit_repository_step (w : InitWorld) (pre : List InitEvent)
    (projectName customerName projectPath : String)
    (h : beforeRepository w = (pre, .created projectName customerName projectPath)) :
    runInit w = ⟨pre ++ repositoryStep w projectName customerName projectPath ++
      summaryLines projectName customerName projectPath, none⟩ ∧
    ((∃ a b c calls, InitEvent.createRepository a b c calls ∈ (runInit w).trace) ↔
      (w.noGitHub = false ∧ w.env.GITHUB_PAT ≠ "")) ∧
    (w.noGitHub = false → w.env.GITHUB_PAT ≠ "" →
      InitEvent.createRepository projectPath projectName customerName
          (CreateRepository w.env projectPath projectName customerName).trace ∈
        repositoryStep w projectName customerName projectPath ∧
      (CreateRepository w.env projectPath projectName customerName).trace.head? =
        some (.post orgReposURL w.env.GITHUB_PAT (repoRequestBody (sanitizeRepoName projectName)
          ("Presales project for " ++ customerName)))) ∧
    (w.noGitHub = true →
      repositoryStep w projectName customerName projectPath =
        [.say "\nSkipped GitHub repository creation."]) ∧
    (w.noGitHub = false → w.env.GITHUB_PAT = "" →
      repositoryStep w projectName customerName projectPath =
        [.say "\nNote: GITHUB_PAT environment variable not set. Skipping GitHub repository creation.",
          .say "To enable automatic repository creation, set your GitHub Personal Access Token:",
          .say "  export GITHUB_PAT=your_token_here"]) := by
  have hrun : runInit w = ⟨pre ++ repositoryStep w projectName customerName projectPath ++
      summaryLines projectName customerName projectPath, none⟩ := by
    simp only [runInit, h]
  have hpre : ∀ a b c calls, InitEvent.createRepository a b c calls ∉ pre := by
    intro a b c calls
    have := beforeRepository_no_repository w a b c calls
    rwa [h] at this
  refine ⟨hrun, ?_, ?_, ?_, ?_⟩
  · rw [hrun]
    constructor
    · rintro ⟨a, b, c, calls, hm⟩
      simp only [List.mem_append] at hm
      rcases hm with (hm | hm) | hm
      · exact absurd hm (hpre a b c calls)
      · by_cases hcond : w.noGitHub = false ∧ w.env.GITHUB_PAT ≠ ""
        · exact hcond
        · exfalso
          simp only [repositoryStep, hcond, if_false] at hm
          split at hm <;> simp [missingTokenNote] at hm
      · simp [summaryLines] at hm
    · intro hcond
      refine ⟨projectPath, projectName, customerName,
        (CreateRepository w.env projectPath projectName customerName).trace, ?_⟩
      simp [repositoryStep, hcond]
  · intro h1 h2
    refine ⟨?_, CreateRepository_first_call w.env projectPath projectName customerName h2⟩
    simp [repositoryStep, h1, h2]
  · intro h1
    simp [repositoryStep, h1, skipNotice]
  · intro h1 h2
    simp [repositoryStep, h1, h2, missingTokenNote]

theorem runInit_repository_step_witness :
    (runInit (sampleInitWorld false envOrgDown)).err = none ∧
    InitEvent.createRepository "acme-poc" "acme-poc" "Acme Corp"
        (CreateRepository envOrgDown "acme-poc" "acme-poc" "Acme Corp").trace ∈
      repositoryStep (sampleInitWorld false envOrgDown) "acme-poc" "Acme Corp" "acme-poc" ∧
    (CreateRepository envOrgDown "acme-poc" "acme-poc" "Acme Corp").err =
      some "GitHub API returned status 500: down" ∧
    repositoryStep (sampleInitWorld true envOrgDown) "acme-poc" "Acme Corp" "acme-poc" =
      [.say "\nSkipped GitHub repository creation."] ∧
    (runInit (sampleInitWorld true envOrgDown)).err = none :=
  have t := runInit_repository_step (sampleInitWorld false envOrgDown)
    (beforeRepository (sampleInitWorld false envOrgDown)).1 "acme-poc" "Acme Corp" "acme-poc"
    (by decide)
  have s := runInit_repository_step (sampleInitWorld true envOrgDown)
    (beforeRepository (sampleInitWorld true envOrgDown)).1 "acme-poc" "Acme Corp" "acme-poc"
    (by decide)
  ⟨congrArg InitRun.err t.1, (t.2.2.1 rfl (by decide)).1, by decide, s.2.2.2.1 rfl,
    congrArg InitRun.err s.1⟩

/-! ## Where the prompt flow saves -/

/-- Joining a path of two elements onto a path names the grandchild of these names. -/
theorem lexResolve_join_two (a x y : String) (hx : IsPathElement x) (hy : IsPathElement y) :
    lexResolve (filepathJoin a (x ++ "/" ++ y)) =
      ⟨(lexResolve a).rooted, (lexResolve a).comps ++ [x, y]⟩ := by
  obtain ⟨hx1, hx2, hx3, hx4⟩ := isPathElement_data x hx
  obtain ⟨hy1, hy2, hy3, hy4⟩ := isPathElement_data y hy
  have hxy : (x ++ "/" ++ y).data = x.data ++ '/' :: y.data := by
    simp [String.data_append]
  have hne : x ++ "/" ++ y ≠ "" := by
    intro k
    have := congrArg String.data k
    rw [hxy] at this
    simp at this
  have hsplit : splitSlash (x.data ++ '/' :: y.data) = [x.data, y.data] := by
    rw [splitSlash_append_slash, splitSlash_of_no_slash _ hx4, splitSlash_of_no_slash _ hy4]
    rfl
  by_cases ha : a = ""
  · subst ha
    simp only [filepathJoin, ne_eq, not_true_eq_false, if_false, hne, not_false_eq_true, if_true,
      lexResolve_clean, lexResolve_empty, List.nil_append]
    have hhead : (x.data ++ '/' :: y.data).head? ≠ some '/' := by
      cases hxd : x.data with
      | nil => exact absurd hxd hx1
      | cons c cs =>
        intro k
        simp only [List.cons_append, List.head?_cons, Option.some.injEq] at k
        exact hx4 (by rw [hxd, k]; exact List.mem_cons_self _ _)
    simp only [lexResolve, hxy, hhead, decide_False, hsplit, List.foldl_cons, List.foldl_nil,
      cleanPush_name _ _ _ hx1 hx2 hx3, cleanPush_name _ _ _ hy1 hy2 hy3, List.reverse_cons,
      List.reverse_nil, List.nil_append, List.singleton_append]
  · have hane : a.data ≠ [] := fun k => ha (String.ext k)
    simp only [filepathJoin, ne_eq, ha, not_false_eq_true, if_true, lexResolve_clean]
    have hdata : (a ++ "/" ++ (x ++ "/" ++ y)).data = a.data ++ '/' :: (x.data ++ '/' :: y.data) := by
      simp [String.data_append]
    have hhead : (a.data ++ '/' :: (x.data ++ '/' :: y.data)).head? = a.data.head? := by
      cases had : a.data with
      | nil => exact absurd had hane
      | cons c cs => simp
    simp only [lexResolve, hdata, hhead, splitSlash_append_slash a.data, hsplit, List.foldl_append,
      List.foldl_cons, List.foldl_nil, cleanPush_name _ _ _ hx1 hx2 hx3,
      cleanPush_name _ _ _ hy1 hy2 hy3, List.reverse_cons, List.reverse_reverse,
      List.append_assoc, List.singleton_append]

theorem presetPaths_targets (basePath customerName p : String) (hp : p ∈ presetPaths) :
    ∃ t ∈ mkdirTargets basePath DirectoryStructure customerName,
      lexResolve t = lexResolve (filepathJoin basePath p) := by
  have e := fun (a n : String) (h : n ∈ ["00_Inbox", "calls", "internal", "external", "emails",
      "notes", "01_Customers", "10_PromptTemplates", "20_Demo_Library", "30_CommunicationTemplates",
      "99_Assets", "Project_Overview", "Communications", "POC_Documents"]) =>
    lexResolve_join_element a n (staticNames_elements n h)
  have e2 := fun (a x y : String) (hx : x ∈ ["00_Inbox", "calls", "internal", "external",
      "emails", "notes", "01_Customers", "10_PromptTemplates", "20_Demo_Library",
      "30_CommunicationTemplates", "99_Assets", "Project_Overview", "Communications",
      "POC_Documents"]) (hy : y ∈ ["00_Inbox", "calls", "internal", "external",
      "emails", "notes", "01_Customers", "10_PromptTemplates", "20_Demo_Library",
      "30_CommunicationTemplates", "99_Assets", "Project_Overview", "Communications",
      "POC_Documents"]) =>
    lexResolve_join_two a x y (staticNames_elements x hx) (staticNames_elements y hy)
  simp only [presetPaths, List.mem_cons, List.mem_singleton, List.not_mem_nil, or_false] at hp
  rcases hp with rfl | rfl | rfl | rfl
  · refine ⟨filepathJoin (filepathJoin basePath "99_Assets") "Project_Overview", ?_, ?_⟩
    · simp [mkdirTargets, DirectoryStructure]
    · rw [e _ _ (by simp), e _ _ (by simp)]
      have := e2 basePath "99_Assets" "Project_Overview" (by simp) (by simp)
      simpa using this.symm
  · refine ⟨filepathJoin (filepathJoin basePath "99_Assets") "Communications", ?_, ?_⟩
    · simp [mkdirTargets, DirectoryStructure]
    · rw [e _ _ (by simp), e _ _ (by simp)]
      have := e2 basePath "99_Assets" "Communications" (by simp) (by simp)
      simpa using this.symm
  · refine ⟨filepathJoin (filepathJoin basePath "99_Assets") "POC_Documents", ?_, ?_⟩
    · simp [mkdirTargets, DirectoryStructure]
    · rw [e _ _ (by simp), e _ _ (by simp)]
      have := e2 basePath "99_Assets" "POC_Documents" (by simp) (by simp)
      simpa using this.symm
  · refine ⟨filepathJoin (filepathJoin basePath "00_Inbox") "notes", ?_, ?_⟩
    · simp [mkdirTargets, DirectoryStructure]
    · rw [e _ _ (by simp), e _ _ (by simp)]
      have := e2 basePath "00_Inbox" "notes" (by simp) (by simp)
      simpa using this.symm

/-- C13: in the prompt flow the preset indices 0 to 3 resolve, whatever the prompt for a
path of the user's own would answer, to the fixed paths `99_Assets/Project_Overview`,
`99_Assets/Communications`, `99_Assets/POC_Documents` and `00_Inbox/notes`, each equal to
the path its menu label shows in parentheses; each of these paths is a node of the static
tree and, under any project root, a directory after a successful `CreateStructure`; and
index 4 resolves to the path the user typed. -/
theorem resolveSavePath_presets (promptCustom : Except String String) (typed : String)
    (fs : FS) (layout : DirTree) (basePath customerName : String)
    (hlayout : SameMap DirectoryStructure layout)
    (hok : (CreateStructure fs layout basePath customerName).2 = none) :
    resolveSavePath 0 promptCustom = some "99_Assets/Project_Overview" ∧
    resolveSavePath 1 promptCustom = some "99_Assets/Communications" ∧
    resolveSavePath 2 promptCustom = some "99_Assets/POC_Documents" ∧
    resolveSavePath 3 promptCustom = some "00_Inbox/notes" ∧
    (∀ i : Nat, i < 4 →
      chooseSavePath (.ok i) promptCustom = presetPaths[i]? ∧
      (locations[i]?).bind labelPath = presetPaths[i]?) ∧
    (∀ p ∈ presetPaths, pathNames p ∈ staticNodes ∧
      (CreateStructure fs layout basePath customerName).1.isDir
        (lexResolve (filepathJoin basePath p)) = true) ∧
    resolveSavePath 4 (.ok typed) = some typed ∧
    chooseSavePath (.ok 4) (.ok typed) = some typed := by
  refine ⟨rfl, rfl, rfl, rfl, ?_, ?_, rfl, rfl⟩
  · intro i hi
    interval_cases i <;> exact ⟨rfl, by decide⟩
  · intro p hp
    constructor
    · revert p
      decide
    · obtain ⟨t, ht, hres⟩ := presetPaths_targets basePath customerName p hp
      unfold CreateStructure at hok ⊢
      rw [createDirectoryStructure_ok_iff] at hok
      rw [createDirectoryStructure_fs, ← hres]
      exact mkdirSeq_made fs _ hok t
        ((sameMap_targets _ _ hlayout basePath customerName).mem_iff.1 ht)

theorem resolveSavePath_presets_witness :
    resolveSavePath 2 (.error "interrupt") = some "99_Assets/POC_Documents" ∧
    (locations[2]?).bind labelPath = some "99_Assets/POC_Documents" ∧
    pathNames "99_Assets/POC_Documents" = ["99_Assets", "POC_Documents"] ∧
    (CreateStructure emptyFS swappedStructure "acme-poc" "Acme Corp").1.isDir
      (lexResolve (filepathJoin "acme-poc" "99_Assets/POC_Documents")) = true ∧
    resolveSavePath 4 (.ok "notes/today") = some "notes/today" :=
  have t := resolveSavePath_presets (.error "interrupt") "notes/today" emptyFS swappedStructure
    "acme-poc" "Acme Corp" (SameMap.swap _ _ _ _ _) (by decide)
  ⟨t.2.2.1, (t.2.2.2.2.1 2 (by decide)).2, by decide,
    (t.2.2.2.2.2.1 "99_Assets/POC_Documents" (by decide)).2, t.2.2.2.2.2.2.1⟩

end NowSC
